import Mathlib

/-!
# CredentialMate — verification of the audit/issue-log core

Shallow embedding of the repository's append-only audit subsystem and of the
JSONL issue-log appender (`credentialmate-docs/issues/agent_issue_wrapper.py`,
`credentialmate-docs/issues/append_fix_status.py`, and the Alembic migrations
under `credentialmate-schemas/alembic/old_migrations/`), together with proofs
about the embedded definitions.

Conventions:
* Python strings are `List Char`; `chars` converts a Lean string literal.
* JSON values are the inductive `JVal`; a parsed JSON object (a Python dict
  with JSON-serializable values) is an association list `JObj` whose lookup
  (`objGet`) models `dict.get` / `dict.__getitem__`.
* The JSONL log file is a `List FileLine`, one element per physical line,
  each already classified by the outcome of `line.strip()` / `json.loads`:
  `FileLine.text` is a line that is blank after stripping, starts with `'#'`,
  or fails to parse as JSON (all three are skipped identically by every
  reader in the source); `FileLine.json v` is a line whose stripped text
  parses to the JSON value `v` (which need not be an object).
* A missing file is `none : Option (List FileLine)`.
* Python exceptions are modelled with `Except`.
-/

namespace CredentialMate


/-- Convert a Lean string literal to the `List Char` used for Python strings. -/
def chars (s : String) : List Char := s.data

/-- JSON values, as produced by `json.loads` / consumed by `json.dump`.
`bool` is kept separate from `int`; where Python's `isinstance (v, int)`
also accepts `bool` (a subclass of `int`), the embedding does so explicitly. -/
inductive JVal where
  | str  (s : List Char)
  | int  (n : Int)
  | bool (b : Bool)
  | null
  | arr  (elems : List JVal)
  | obj  (fields : List (List Char × JVal))

/-- A JSON object: a Python dict with string keys, in insertion order. -/
abbrev JObj := List (List Char × JVal)

/-- `d.get(k)` on a dict: first binding of the key, if any. -/
def objGet (o : JObj) (k : List Char) : Option JVal :=
  match o with
  | [] => none
  | (k', v) :: rest => if k' = k then some v else objGet rest k

/-- Python `v == s` where `s` is a `str` and `v` an optional JSON value
(`dict.get` result): true only when `v` is that very string. -/
def optEqStr (v : Option JVal) (s : List Char) : Bool :=
  match v with
  | some (.str t) => t = s
  | _ => false

/-- One physical line of the JSONL log, classified by parseability (see the
module docstring).  `text` covers stripped-blank lines, `'#'` comment lines
and lines on which `json.loads` raises `JSONDecodeError`; `json v` is a line
whose stripped content parses to the JSON value `v`. -/
inductive FileLine where
  | text (raw : List Char)
  | json (v : JVal)

/-- The JSON objects among a file's parseable lines (every line that parses
as JSON *and* is an object), in file order. -/
def objEntries : List FileLine → List JObj
  | [] => []
  | .text _ :: rest => objEntries rest
  | .json (.obj e) :: rest => e :: objEntries rest
  | .json _ :: rest => objEntries rest

/-!
## UUID4 validation (`IssueAppender._is_valid_uuid4`)

`_is_valid_uuid4(value)` runs `parsed = uuid.UUID(value, version=4)` and
returns `str(parsed) == value`, catching `ValueError`/`AttributeError`.
CPython's `uuid.UUID(hex, version=4)` does, in order:
`hex.replace('urn:', '').replace('uuid:', '')`, `.strip('{}')`,
`.replace('-', '')`, requires exactly 32 remaining characters, parses them
with `int(hex, 16)`, then forces the RFC 4122 variant
(`int &= ~(0xc000 << 48); int |= 0x8000 << 48`) and the version
(`int &= ~(0xf000 << 64); int |= 4 << 76`), and `str(parsed)` renders the
128-bit value as 32 lowercase hex digits grouped 8-4-4-4-12.

The embedding keeps the value as its list of 32 hex nibbles (most
significant first); the two masked bit updates act on whole nibbles: they
set nibble 16 to `(n % 4) + 8` and nibble 12 to `4`.
-/

/-- Value of one hex digit as read by `int(hex, 16)`: ASCII `0`-`9` (codes
48-57), `a`-`f` (97-102), `A`-`F` (65-70).  (`int` additionally tolerates
signs, whitespace, underscores, `0x` and non-ASCII digits; none of those can
survive `_is_valid_uuid4`'s final equality with the all-ASCII canonical
rendering, so a string using them yields `False` both in the source and
here.) -/
def hexVal? (c : Char) : Option Nat :=
  let n := c.toNat
  if 48 ≤ n ∧ n ≤ 57 then some (n - 48)
  else if 97 ≤ n ∧ n ≤ 102 then some (n - 97 + 10)
  else if 65 ≤ n ∧ n ≤ 70 then some (n - 65 + 10)
  else none

/-- Lowercase hex digit for a nibble, as used by `str(uuid.UUID(...))`. -/
def hexChar (n : Nat) : Char :=
  if n < 10 then Char.ofNat (48 + n) else Char.ofNat (97 + (n - 10))

/-- `hex.replace('urn:', '')`: remove every non-overlapping occurrence of
`urn:`, scanning left to right. -/
def replaceUrn : List Char → List Char
  | 'u' :: 'r' :: 'n' :: ':' :: rest => replaceUrn rest
  | c :: rest => c :: replaceUrn rest
  | [] => []

/-- `hex.replace('uuid:', '')`: remove every non-overlapping occurrence of
`uuid:`, scanning left to right. -/
def replaceUuidPat : List Char → List Char
  | 'u' :: 'u' :: 'i' :: 'd' :: ':' :: rest => replaceUuidPat rest
  | c :: rest => c :: replaceUuidPat rest
  | [] => []

/-- Is the character one of the characters stripped by `.strip('{}')`? -/
def isBraceCh (c : Char) : Bool := c == '{' || c == '}'

/-- `hex.strip('{}')`: drop `{`/`}` characters from both ends. -/
def stripBraces (s : List Char) : List Char :=
  ((s.dropWhile isBraceCh).reverse.dropWhile isBraceCh).reverse

/-- `hex.replace('-', '')`. -/
def removeDashes (s : List Char) : List Char := s.filter (fun c => c != '-')

/-- `int(hex, 16)` on a digit string, kept as the list of nibble values. -/
def parseHexDigits : List Char → Option (List Nat)
  | [] => some []
  | c :: rest =>
    match hexVal? c, parseHexDigits rest with
    | some d, some ds => some (d :: ds)
    | _, _ => none

/-- The `version=4` bit surgery of `uuid.UUID` on the nibble list: variant
nibble 16 becomes `(n % 4) + 8` (clear the top two bits, set bit 3), version
nibble 12 becomes `4`. -/
def forceVersion4 (ns : List Nat) : List Nat :=
  (ns.set 16 (ns.getD 16 0 % 4 + 8)).set 12 4

/-- `str(uuid.UUID(...))`: group the 32 hex characters 8-4-4-4-12 with
hyphens between groups. -/
def hyphenate (h : List Char) : List Char :=
  h.take 8 ++ '-' ::
    ((h.drop 8).take 4 ++ '-' ::
      ((h.drop 12).take 4 ++ '-' ::
        ((h.drop 16).take 4 ++ '-' :: h.drop 20)))

/-- `IssueAppender._is_valid_uuid4`. -/
def isValidUuid4 (value : List Char) : Bool :=
  let hex := removeDashes (stripBraces (replaceUuidPat (replaceUrn value)))
  if hex.length = 32 then
    match parseHexDigits hex with
    | some ns => decide (hyphenate ((forceVersion4 ns).map hexChar) = value)
    | none => false
  else false

/-- Spec-side characterization for C10: the canonical lowercase hyphenated
string form of a version-4 UUID — the 8-4-4-4-12 lowercase rendering of 32
nibbles whose version nibble (index 12) is `4` and whose variant nibble
(index 16) has its top two bits equal to `10`, i.e. lies in `8..11`. -/
def IsCanonicalUuid4 (s : List Char) : Prop :=
  ∃ ns : List Nat, ns.length = 32 ∧ (∀ n ∈ ns, n < 16) ∧
    ns.getD 12 0 = 4 ∧ 8 ≤ ns.getD 16 0 ∧ ns.getD 16 0 ≤ 11 ∧
    s = hyphenate (ns.map hexChar)

/-!
## Timestamp validation (`IssueAppender._is_valid_timestamp`)

`_is_valid_timestamp(value)` requires `value.endswith("Z")` and
`datetime.datetime.fromisoformat(value[:-1])` not to raise.  The embedding
models the CPython (≤ 3.10) `fromisoformat` grammar — the inverse of
`datetime.isoformat`: `YYYY-MM-DD[*HH[:MM[:SS[.fff[fff]]]][(+|-)HH:MM[:SS[.ffffff]]]]`
with calendar/range validation.  (CPython's `int` would additionally accept
signs or padding inside the fixed-width numeric fields; only plain digit
runs are modelled, which covers every string `isoformat` can produce.)
-/

/-- ASCII decimal digit. -/
def isDigit (c : Char) : Bool := 48 ≤ c.toNat && c.toNat ≤ 57

/-- Numeric value of an ASCII digit. -/
def digitVal (c : Char) : Nat := c.toNat - 48

/-- Value of a run of ASCII digits. -/
def digitsVal (l : List Char) : Nat := l.foldl (fun acc c => acc * 10 + digitVal c) 0

/-- Consume exactly two digits, returning their value and the rest. -/
def two? : List Char → Option (Nat × List Char)
  | c1 :: c2 :: rest =>
    if isDigit c1 && isDigit c2 then some (digitVal c1 * 10 + digitVal c2, rest)
    else none
  | _ => none

/-- Gregorian leap year, as `datetime` computes it. -/
def isLeapYear (y : Nat) : Bool := (y % 4 == 0 && y % 100 != 0) || y % 400 == 0

/-- Days in a month, as validated by the `datetime.date` constructor. -/
def daysInMonth (y m : Nat) : Nat :=
  if m == 2 then (if isLeapYear y then 29 else 28)
  else if m == 4 || m == 6 || m == 9 || m == 11 then 30
  else 31

/-- `datetime.date(y, m, d)` constructor validation (`MINYEAR = 1`,
`MAXYEAR = 9999`; the year always has four digits here, so `≤ 9999` holds). -/
def dateOk (y m d : Nat) : Bool :=
  1 ≤ y && 1 ≤ m && m ≤ 12 && 1 ≤ d && d ≤ daysInMonth y m

/-- CPython `_parse_hh_mm_ss_ff`: shape `HH[:MM[:SS[.fff[fff]]]]`, no range
checks; returns `(hour, minute, second, microsecond)`. -/
def hmsShape? (t : List Char) : Option (Nat × Nat × Nat × Nat) :=
  match two? t with
  | none => none
  | some (h, rest) =>
    match rest with
    | [] => some (h, 0, 0, 0)
    | ':' :: rest2 =>
      match two? rest2 with
      | none => none
      | some (m, rest3) =>
        match rest3 with
        | [] => some (h, m, 0, 0)
        | ':' :: rest4 =>
          match two? rest4 with
          | none => none
          | some (sec, rest5) =>
            match rest5 with
            | [] => some (h, m, sec, 0)
            | '.' :: frac =>
              if frac.length == 3 && frac.all isDigit then
                some (h, m, sec, digitsVal frac * 1000)
              else if frac.length == 6 && frac.all isDigit then
                some (h, m, sec, digitsVal frac)
              else none
            | _ => none
        | _ => none
    | _ => none

/-- Split the time string at the timezone sign: CPython uses the first `-`
if any, else the first `+` (`tstr.find('-') + 1 or tstr.find('+') + 1`). -/
def splitAtCh (c : Char) : List Char → Option (List Char × List Char)
  | [] => none
  | d :: rest =>
    if d = c then some ([], rest)
    else match splitAtCh c rest with
      | none => none
      | some (a, b) => some (d :: a, b)

/-- Timezone part `HH:MM[:SS[.ffffff]]`: CPython requires length 5, 8 or 15,
parses it with `_parse_hh_mm_ss_ff`, and the `timezone` constructor requires
the offset magnitude to be strictly less than 24 hours (components are not
otherwise range-checked). -/
def tzOk (tzstr : List Char) : Bool :=
  (tzstr.length == 5 || tzstr.length == 8 || tzstr.length == 15) &&
    match hmsShape? tzstr with
    | some (h, m, s, us) => ((h * 3600 + m * 60 + s) * 1000000 + us) < 86400000000
    | none => false

/-- `datetime.time` constructor range validation on the time components. -/
def timePartOk (t : List Char) : Bool :=
  match hmsShape? t with
  | some (h, m, s, _) => h < 24 && m < 60 && s < 60
  | none => false

/-- CPython `_parse_isoformat_time` on `s[11:]`. -/
def timeOk (t : List Char) : Bool :=
  match splitAtCh '-' t with
  | some (timestr, tzstr) => timePartOk timestr && tzOk tzstr
  | none =>
    match splitAtCh '+' t with
    | some (timestr, tzstr) => timePartOk timestr && tzOk tzstr
    | none => timePartOk t

/-- `datetime.datetime.fromisoformat` (CPython ≤ 3.10): `s[0:10]` must be a
valid `YYYY-MM-DD`; a character at index 10, if present, is an arbitrary
separator; `s[11:]`, if non-empty, must be a valid time string. -/
def fromisoformatOk (s : List Char) : Bool :=
  match s with
  | y1 :: y2 :: y3 :: y4 :: '-' :: m1 :: m2 :: '-' :: d1 :: d2 :: rest =>
    (isDigit y1 && isDigit y2 && isDigit y3 && isDigit y4 &&
     isDigit m1 && isDigit m2 && isDigit d1 && isDigit d2) &&
    dateOk (digitsVal [y1, y2, y3, y4]) (digitVal m1 * 10 + digitVal m2)
      (digitVal d1 * 10 + digitVal d2) &&
    (match rest with
     | [] => true
     | _sep :: tstr => tstr.isEmpty || timeOk tstr)
  | _ => false

/-- `IssueAppender._is_valid_timestamp`. -/
def isValidTimestamp (value : List Char) : Bool :=
  match value.getLast? with
  | some 'Z' => fromisoformatOk value.dropLast
  | _ => false

/-!
## Issue validation (`IssueAppender.validate_issue`)

Validation errors are modelled by `VErr`, one constructor per `raise
IssueValidationError(...)` site (the constructor plus its payload stand for
the message, which identifies the violated constraint).  `VFail.typeError`
models the one uncaught Python `TypeError`: `uuid.UUID(None, version=4)`
raised on a `None` element of `blocked_by`/`depends_on` (for every other
non-string element `.replace` raises `AttributeError`, which
`_is_valid_uuid4` catches and turns into `False`).
-/

/-- Python types required of each field (`REQUIRED_FIELDS` values). -/
inductive PyTy where
  | tStr
  | tList
  | tInt
deriving DecidableEq

/-- `IssueAppender.REQUIRED_FIELDS`, in source (dict-insertion) order. -/
def REQUIRED_FIELDS : List (List Char × PyTy) :=
  [(chars "issue_id", .tStr),
   (chars "timestamp_utc", .tStr),
   (chars "repo", .tStr),
   (chars "agent", .tStr),
   (chars "severity", .tStr),
   (chars "type", .tStr),
   (chars "status", .tStr),
   (chars "title", .tStr),
   (chars "description", .tStr),
   (chars "repro", .tStr),
   (chars "root_cause_guess", .tStr),
   (chars "blocked_by", .tList),
   (chars "depends_on", .tList),
   (chars "attempts", .tInt),
   (chars "fix_summary", .tStr)]

/-- `IssueAppender.VALID_REPOS`. -/
def VALID_REPOS : List (List Char) :=
  [chars "credentialmate-app", chars "credentialmate-infra",
   chars "credentialmate-rules", chars "credentialmate-notification",
   chars "credentialmate-schemas", chars "credentialmate-ai",
   chars "credentialmate-docs"]

/-- `IssueAppender.VALID_SEVERITIES`. -/
def VALID_SEVERITIES : List (List Char) :=
  [chars "CRITICAL", chars "HIGH", chars "MEDIUM", chars "LOW"]

/-- `IssueAppender.VALID_TYPES`. -/
def VALID_TYPES : List (List Char) :=
  [chars "bug", chars "enhancement", chars "tech_debt", chars "security",
   chars "documentation", chars "performance", chars "compliance"]

/-- `IssueAppender.VALID_STATUSES`. -/
def VALID_STATUSES : List (List Char) :=
  [chars "NEW", chars "TRIAGED", chars "IN_PROGRESS", chars "FIXED",
   chars "VERIFIED", chars "CLOSED", chars "WONTFIX"]

/-- `isinstance(value, expected_type)`; Python's `bool` is a subclass of
`int`, so a boolean passes the `int` check. -/
def typeMatches (v : JVal) : PyTy → Bool
  | .tStr => match v with | .str _ => true | _ => false
  | .tList => match v with | .arr _ => true | _ => false
  | .tInt => match v with | .int _ => true | .bool _ => true | _ => false

/-- One `IssueValidationError` raise site of `validate_issue` each. -/
inductive VErr where
  | missingFields (fields : List (List Char))
  | wrongType (field : List Char)
  | invalidUuid (id : List Char)
  | invalidTimestamp
  | badRepo
  | badSeverity
  | badType
  | badStatus
  | badTitleLength
  | badDescriptionLength
  | badReproLength
  | badRootCauseLength
  | negativeAttempts
  | badBlockedBy
  | badDependsOn
  | duplicateId (id : List Char)
deriving DecidableEq

/-- How `validate_issue` can fail: a raised `IssueValidationError`, or the
uncaught `TypeError` from `uuid.UUID(None, version=4)`. -/
inductive VFail where
  | validation (e : VErr)
  | typeError
deriving DecidableEq

/-- `issue[k]` read as a string (guarded by the earlier type check). -/
def strField (issue : JObj) (k : List Char) : List Char :=
  match objGet issue k with
  | some (.str s) => s
  | _ => []

/-- `issue[k]` read as a list (guarded by the earlier type check). -/
def listField (issue : JObj) (k : List Char) : List JVal :=
  match objGet issue k with
  | some (.arr l) => l
  | _ => []

/-- `issue[k]` read as an int (guarded by the earlier type check; a Python
`bool` has int value 1 or 0). -/
def intField (issue : JObj) (k : List Char) : Int :=
  match objGet issue k with
  | some (.int n) => n
  | some (.bool b) => if b then 1 else 0
  | _ => 0

/-- The first field of `REQUIRED_FIELDS` whose value fails `isinstance`. -/
def firstTypeErrorField (issue : JObj) : List (List Char × PyTy) → Option (List Char)
  | [] => none
  | (k, ty) :: rest =>
    match objGet issue k with
    | some v => if typeMatches v ty then firstTypeErrorField issue rest else some k
    | none => some k

/-- The `for uuid_str in issue[...]` loops: each element goes through
`_is_valid_uuid4`; a `None` element makes `uuid.UUID` raise an uncaught
`TypeError`; any other non-string gives `AttributeError`, caught and turned
into `False`, hence an `IssueValidationError`. -/
def checkUuidList (err : VErr) : List JVal → Except VFail Unit
  | [] => .ok ()
  | v :: rest =>
    match v with
    | .null => .error .typeError
    | .str s => if isValidUuid4 s then checkUuidList err rest else .error (.validation err)
    | _ => .error (.validation err)

/-- The duplicate-`issue_id` scan over the log.  Blank, comment and
JSON-unparseable lines are skipped (`json.JSONDecodeError` is caught
inside the loop); a line parsing to a non-object JSON value raises
`AttributeError` at `entry.get`, which the surrounding
`except Exception` turns into a printed warning — aborting the scan and
letting validation succeed. -/
def scanDup (id : List Char) : List FileLine → Except VFail Unit
  | [] => .ok ()
  | .text _ :: rest => scanDup id rest
  | .json (.obj e) :: rest =>
    if optEqStr (objGet e (chars "issue_id")) id then
      .error (.validation (.duplicateId id))
    else scanDup id rest
  | .json _ :: _ => .ok ()

/-- `IssueAppender.validate_issue`, check for check in source order. -/
def validateIssue (issue : JObj) (file : Option (List FileLine)) : Except VFail Unit :=
  let missing := (REQUIRED_FIELDS.map Prod.fst).filter (fun k => (objGet issue k).isNone)
  if missing = [] then
    match firstTypeErrorField issue REQUIRED_FIELDS with
    | some k => .error (.validation (.wrongType k))
    | none =>
      if isValidUuid4 (strField issue (chars "issue_id")) = false then
        .error (.validation (.invalidUuid (strField issue (chars "issue_id"))))
      else if isValidTimestamp (strField issue (chars "timestamp_utc")) = false then
        .error (.validation .invalidTimestamp)
      else if VALID_REPOS.contains (strField issue (chars "repo")) = false then
        .error (.validation .badRepo)
      else if VALID_SEVERITIES.contains (strField issue (chars "severity")) = false then
        .error (.validation .badSeverity)
      else if VALID_TYPES.contains (strField issue (chars "type")) = false then
        .error (.validation .badType)
      else if VALID_STATUSES.contains (strField issue (chars "status")) = false then
        .error (.validation .badStatus)
      else if (strField issue (chars "title")).length < 10 ∨
          200 < (strField issue (chars "title")).length then
        .error (.validation .badTitleLength)
      else if (strField issue (chars "description")).length < 20 then
        .error (.validation .badDescriptionLength)
      else if (strField issue (chars "repro")).length < 10 then
        .error (.validation .badReproLength)
      else if (strField issue (chars "root_cause_guess")).length < 10 then
        .error (.validation .badRootCauseLength)
      else if intField issue (chars "attempts") < 0 then
        .error (.validation .negativeAttempts)
      else
        match checkUuidList .badBlockedBy (listField issue (chars "blocked_by")) with
        | .error e => .error e
        | .ok _ =>
          match checkUuidList .badDependsOn (listField issue (chars "depends_on")) with
          | .error e => .error e
          | .ok _ =>
            match file with
            | none => .ok ()
            | some lines => scanDup (strField issue (chars "issue_id")) lines
  else .error (.validation (.missingFields missing))

/-- The entries the duplicate scan actually inspects: the JSON-object lines
up to (excluding) the first line that parses to a non-object JSON value, at
which the scan aborts. -/
def scannedEntries : List FileLine → List JObj
  | [] => []
  | .text _ :: rest => scannedEntries rest
  | .json (.obj e) :: rest => e :: scannedEntries rest
  | .json _ :: _ => []

/-- `scannedEntries` lifted to a possibly-missing file (`validate_issue`
skips the scan when the log file does not exist). -/
def scannedOf : Option (List FileLine) → List JObj
  | none => []
  | some lines => scannedEntries lines

/-- Exact characterization of the issues `validate_issue` accepts against a
given log file: all schema checks pass and the `issue_id` does not occur in
the scanned portion of the log. -/
structure SchemaOk (issue : JObj) (file : Option (List FileLine)) : Prop where
  present : ∀ k ∈ REQUIRED_FIELDS.map Prod.fst, (objGet issue k).isSome = true
  typed : ∀ p ∈ REQUIRED_FIELDS, ∃ v, objGet issue p.1 = some v ∧ typeMatches v p.2 = true
  uuidOk : isValidUuid4 (strField issue (chars "issue_id")) = true
  tsOk : isValidTimestamp (strField issue (chars "timestamp_utc")) = true
  repoOk : VALID_REPOS.contains (strField issue (chars "repo")) = true
  severityOk : VALID_SEVERITIES.contains (strField issue (chars "severity")) = true
  typeOk : VALID_TYPES.contains (strField issue (chars "type")) = true
  statusOk : VALID_STATUSES.contains (strField issue (chars "status")) = true
  titleLo : 10 ≤ (strField issue (chars "title")).length
  titleHi : (strField issue (chars "title")).length ≤ 200
  descLen : 20 ≤ (strField issue (chars "description")).length
  reproLen : 10 ≤ (strField issue (chars "repro")).length
  rootCauseLen : 10 ≤ (strField issue (chars "root_cause_guess")).length
  attemptsNonneg : 0 ≤ intField issue (chars "attempts")
  blockedOk : ∀ v ∈ listField issue (chars "blocked_by"),
    ∃ s, v = JVal.str s ∧ isValidUuid4 s = true
  dependsOk : ∀ v ∈ listField issue (chars "depends_on"),
    ∃ s, v = JVal.str s ∧ isValidUuid4 s = true
  fresh : ∀ e ∈ scannedOf file,
    optEqStr (objGet e (chars "issue_id")) (strField issue (chars "issue_id")) = false

/-!
## Appending (`IssueAppender.append_issue`, `append_fix_status.main`)
-/

/-- The `ISSUES_LOG_HEADER` comment block written when the log file is
created: nine `#` comment lines followed by a blank line. -/
def ISSUES_LOG_HEADER : List FileLine :=
  [.text (chars "# SOC2 TYPE II COMPLIANT ISSUE LOG"),
   .text (chars "# ORIGIN: Automated Global Issues Log (Auto-Issues Engine)"),
   .text (chars "# TIMESTAMP: 2025-11-16T00:00:00Z"),
   .text (chars "# SCHEMA_VERSION: 1.0"),
   .text (chars "# UPDATED_FOR: Phase 6 – BugFix / UAT"),
   .text (chars "# ACCESS_CONTROL: credentialmate-docs repository only"),
   .text (chars "# RETENTION: Indefinite (audit trail)"),
   .text (chars "# INTEGRITY: Append-only JSONL, never modify prior entries"),
   .text (chars "# CLASSIFICATION: Internal Development"),
   .text []]

/-- `IssueAppender.append_issue`: validate first; only if validation passes,
create the file (with header) when missing, then open in append mode and
write the issue as one compact JSON line (`json.dump` + `"\n"` — compact
separators, so the serialized object is a single line that parses back to
the same JSON value).  Returns the outcome and the resulting file state. -/
def appendIssue (issue : JObj) (file : Option (List FileLine)) :
    Except VFail Unit × Option (List FileLine) :=
  match validateIssue issue file with
  | .error e => (.error e, file)
  | .ok _ =>
    let base := match file with
      | none => ISSUES_LOG_HEADER
      | some lines => lines
    (.ok (), some (base ++ [FileLine.json (.obj issue)]))

/-- The append step of `append_fix_status.main`: open the log in append
mode and write one compact JSON line — no validation, no rewriting of
existing lines.  This is the path by which lifecycle/status updates are
recorded. -/
def appendRawEntry (file : List FileLine) (e : JObj) : List FileLine :=
  file ++ [FileLine.json (.obj e)]

/-- The concrete `status_update` dict of `append_fix_status.py` (the
`FIXED` lifecycle entry for the login bug). -/
def fixStatusUpdate : JObj :=
  [(chars "issue_id", .str (chars "a16d7f13-4586-4fb8-ad91-24facc03042d")),
   (chars "timestamp_utc", .str (chars "2025-11-16T16:30:00Z")),
   (chars "status", .str (chars "FIXED")),
   (chars "previous_status", .str (chars "NEW")),
   (chars "updated_by", .str (chars "claude-code-bugfix-v1")),
   (chars "attempts", .int 1),
   (chars "fix_summary", .str (chars "Applied CSP fix: Added connect-src entries in frontend/next.config.js line 27.")),
   (chars "fix_location", .str (chars "frontend/next.config.js:27")),
   (chars "fix_type", .str (chars "CSP header configuration")),
   (chars "test_status", .str (chars "VERIFIED - Build output contains correct CSP")),
   (chars "build_verified", .bool true),
   (chars "artifacts", .arr [.str (chars "routes-manifest.json contains fixed CSP"),
                             .str (chars "npm run build: SUCCESS"),
                             .str (chars "No CSP-related compilation errors")])]

/-!
## Read-only scans (`check_new_issues`, `get_issue_summary`)

Both iterate the file, skip stripped-blank lines, `#` lines and
JSON-unparseable lines (`except json.JSONDecodeError: pass`), and then call
`entry.get(...)` on the parsed value.  Unlike the duplicate scan in
`validate_issue`, neither has a surrounding `except Exception`, so a line
parsing to a non-object JSON value raises an uncaught `AttributeError`; in
`get_issue_summary` an unhashable (list/dict) grouping value would raise an
uncaught `TypeError` when used as a counter-dict key.
-/

/-- Uncaught Python exceptions of the read-only scans. -/
inductive PyErr where
  | attributeError
  | typeError
deriving DecidableEq

/-- Python `v == s` for a JSON value and a `str`. -/
def jvalEqStr (v : JVal) (s : List Char) : Bool :=
  match v with
  | .str t => t = s
  | _ => false

/-- Is the value usable as a Python dict key (hashable)?  `list` and `dict`
values are unhashable. -/
def jvalScalar : JVal → Bool
  | .arr _ => false
  | .obj _ => false
  | _ => true

/-- Normalization underlying Python `==`/`hash` on dict keys: a `bool`
compares and hashes equal to its numeric value (`True == 1`, `False == 0`),
so it is keyed as that `int`. -/
def pyKey (v : JVal) : JVal :=
  match v with
  | .bool b => .int (if b then 1 else 0)
  | x => x

/-- Python `==` on hashable JSON scalars, as used for dict keys: equality of
the normalized keys (strings to strings, numbers to numbers, `None` to
`None`; `list`/`dict` never occur as keys — they are unhashable). -/
def pyKeyEq (a b : JVal) : Bool :=
  match pyKey a, pyKey b with
  | .str s, .str t => s = t
  | .int m, .int n => m = n
  | .null, .null => true
  | _, _ => false

/-- `d[k] = d.get(k, 0) + 1` on a counter dict kept in insertion order. -/
def bumpKey : List (JVal × Nat) → JVal → List (JVal × Nat)
  | [], k => [(k, 1)]
  | (k', n) :: rest, k =>
    if pyKeyEq k' k then (k', n + 1) :: rest else (k', n) :: bumpKey rest k

/-- `d.get(k, 0)` on a counter dict. -/
def countOf : List (JVal × Nat) → JVal → Nat
  | [], _ => 0
  | (k', n) :: rest, k => if pyKeyEq k' k then n else countOf rest k

/-- `entry.get(field, "UNKNOWN")`. -/
def keyOf (field : List Char) (e : JObj) : JVal :=
  (objGet e field).getD (.str (chars "UNKNOWN"))

/-- `check_new_issues`'s loop body over the classified lines. -/
def checkNewLines : List FileLine → Except PyErr (List JObj)
  | [] => .ok []
  | .text _ :: rest => checkNewLines rest
  | .json (.obj e) :: rest =>
    if optEqStr (objGet e (chars "status")) (chars "NEW") then
      match checkNewLines rest with
      | .error err => .error err
      | .ok r => .ok (e :: r)
    else checkNewLines rest
  | .json _ :: _ => .error .attributeError

/-- `IssueAppender.check_new_issues`: `[]` if the file does not exist. -/
def checkNewIssues (file : Option (List FileLine)) : Except PyErr (List JObj) :=
  match file with
  | none => .ok []
  | some lines => checkNewLines lines

/-- The summary dict built by `get_issue_summary`. -/
structure IssueSummary where
  total_issues : Nat
  by_status : List (JVal × Nat)
  by_severity : List (JVal × Nat)
  by_repo : List (JVal × Nat)
  by_type : List (JVal × Nat)
  new_count : Nat

/-- The summary value before any entry is processed. -/
def initSummary : IssueSummary := ⟨0, [], [], [], [], 0⟩

/-- `get_issue_summary`'s per-entry updates, in source order; an unhashable
grouping value raises `TypeError` at its counter-dict insertion. -/
def summStep (acc : IssueSummary) (e : JObj) : Except PyErr IssueSummary :=
  let st := keyOf (chars "status") e
  if jvalScalar st = false then .error .typeError
  else
    let sev := keyOf (chars "severity") e
    if jvalScalar sev = false then .error .typeError
    else
      let rp := keyOf (chars "repo") e
      if jvalScalar rp = false then .error .typeError
      else
        let tp := keyOf (chars "type") e
        if jvalScalar tp = false then .error .typeError
        else
          .ok { total_issues := acc.total_issues + 1
                by_status := bumpKey acc.by_status st
                by_severity := bumpKey acc.by_severity sev
                by_repo := bumpKey acc.by_repo rp
                by_type := bumpKey acc.by_type tp
                new_count := acc.new_count + (if jvalEqStr st (chars "NEW") then 1 else 0) }

/-- `get_issue_summary`'s loop over the classified lines. -/
def summLines : List FileLine → IssueSummary → Except PyErr IssueSummary
  | [], acc => .ok acc
  | .text _ :: rest, acc => summLines rest acc
  | .json (.obj e) :: rest, acc =>
    match summStep acc e with
    | .error err => .error err
    | .ok acc' => summLines rest acc'
  | .json _ :: _, _ => .error .attributeError

/-- `IssueAppender.get_issue_summary`: the empty summary if the file does
not exist. -/
def getIssueSummary (file : Option (List FileLine)) : Except PyErr IssueSummary :=
  match file with
  | none => .ok initSummary
  | some lines => summLines lines initSummary

/-!
## `create_issue`
-/

/-- `create_issue(...)`: builds a properly-formatted issue dict.  The two
nondeterministic stdlib calls are inputs of the embedding: `uuidStr` stands
for `str(uuid.uuid4())` (always a canonical v4 UUID string) and `nowIso` for
`datetime.datetime.utcnow().isoformat()` (always a string `fromisoformat`
accepts); the source appends `"Z"` to the latter.  The `None` defaults of
`blocked_by`/`depends_on` become the empty list (`blocked_by or []`). -/
def createIssue (uuidStr nowIso repo agent severity issueType title description
    repro rootCauseGuess : List Char) (blockedBy dependsOn : List (List Char)) : JObj :=
  [(chars "issue_id", .str uuidStr),
   (chars "timestamp_utc", .str (nowIso ++ ['Z'])),
   (chars "repo", .str repo),
   (chars "agent", .str agent),
   (chars "severity", .str severity),
   (chars "type", .str issueType),
   (chars "status", .str (chars "NEW")),
   (chars "title", .str title),
   (chars "description", .str description),
   (chars "repro", .str repro),
   (chars "root_cause_guess", .str rootCauseGuess),
   (chars "blocked_by", .arr (blockedBy.map .str)),
   (chars "depends_on", .arr (dependsOn.map .str)),
   (chars "attempts", .int 0),
   (chars "fix_summary", .str [])]

/-- The example issue of the module's `__main__` block, with the
nondeterministic UUID/timestamp fixed to concrete values. -/
def exampleIssue : JObj :=
  createIssue (chars "a16d7f13-4586-4fb8-ad91-24facc03042d")
    (chars "2025-11-16T00:00:00")
    (chars "credentialmate-app")
    (chars "claude-code-audit-v1")
    (chars "HIGH")
    (chars "bug")
    (chars "Missing input validation in auth endpoint")
    (chars "POST /auth/login does not validate email format before database query")
    (chars "Send invalid email to POST /auth/login")
    (chars "Validation middleware missing from auth routes")
    [] []

/-!
## Append-only audit tables and immutability triggers

From migrations `20251111_200050_immutable_keystrokes_and_events.py` and
`8c414c598b42_add_immutability_triggers.py`: the function
`prevent_audit_modification()` unconditionally raises
`Cannot modify audit logs (HIPAA 45 CFR 164.312(b) requirement)`, and is
installed as `BEFORE UPDATE OR DELETE ... FOR EACH ROW` on `audit_logs`,
`change_events` and `keystroke_logs`.  The embedding gives the operational
semantics of SQL statements against these three tables under those
triggers; the row type is a parameter because the trigger fires regardless
of row contents.
-/

/-- The three guarded audit tables. -/
inductive AuditTable where
  | audit_logs
  | change_events
  | keystroke_logs
deriving DecidableEq

/-- Database state: the persisted rows of the three audit tables. -/
structure AuditDb (ρ : Type) where
  audit_logs : List ρ
  change_events : List ρ
  keystroke_logs : List ρ
deriving DecidableEq

/-- Rows of one table. -/
def tableOf {ρ : Type} (db : AuditDb ρ) : AuditTable → List ρ
  | .audit_logs => db.audit_logs
  | .change_events => db.change_events
  | .keystroke_logs => db.keystroke_logs

/-- Replace one table's rows. -/
def setTable {ρ : Type} (db : AuditDb ρ) : AuditTable → List ρ → AuditDb ρ
  | .audit_logs, l => { db with audit_logs := l }
  | .change_events, l => { db with change_events := l }
  | .keystroke_logs, l => { db with keystroke_logs := l }

/-- SQL statements against the audit tables: `INSERT` of one row, `UPDATE`
with a `WHERE` predicate and `SET` transformation, `DELETE` with a `WHERE`
predicate. -/
inductive SqlStmt (ρ : Type) where
  | insert (t : AuditTable) (r : ρ)
  | update (t : AuditTable) (cond : ρ → Bool) (setf : ρ → ρ)
  | delete (t : AuditTable) (cond : ρ → Bool)

/-- The error raised by the trigger function. -/
inductive DbError where
  | immutable (msg : List Char)
deriving DecidableEq

/-- `RAISE EXCEPTION 'Cannot modify audit logs (HIPAA 45 CFR 164.312(b)
requirement)'`. -/
def immutabilityError : DbError :=
  .immutable (chars "Cannot modify audit logs (HIPAA 45 CFR 164.312(b) requirement)")

/-- Statement semantics under the immutability triggers: `INSERT` appends
its row; an `UPDATE`/`DELETE` whose predicate matches at least one row
fires the `BEFORE ... FOR EACH ROW` trigger, which raises and aborts the
statement with every table unchanged; one matching no row never fires the
trigger and changes nothing.  Result: outcome paired with resulting state. -/
def execStmt {ρ : Type} (stmt : SqlStmt ρ) (db : AuditDb ρ) :
    Except DbError Unit × AuditDb ρ :=
  match stmt with
  | .insert t r => (.ok (), setTable db t (tableOf db t ++ [r]))
  | .update t cond _ =>
    if (tableOf db t).any cond then (.error immutabilityError, db) else (.ok (), db)
  | .delete t cond =>
    if (tableOf db t).any cond then (.error immutabilityError, db) else (.ok (), db)

/-!
## Change events: per-aggregate uniqueness and total order

From the `change_events` table (`20251111_200050`) and the unique index
`ix_change_events_aggregate` on `(aggregate_type, aggregate_id, event_seq)`
(`20251111_200060`).
-/

/-- A `change_events` row (columns of migration `20251111_200050`). -/
structure ChangeEvent where
  event_id : List Char
  aggregate_type : List Char
  aggregate_id : List Char
  event_seq : Int
  event_type : List Char
  event_payload : JVal
  actor_id : Option (List Char)
  created_at : Int

/-- The key triple of the unique index `ix_change_events_aggregate`. -/
def tripleOf (e : ChangeEvent) : List Char × List Char × Int :=
  (e.aggregate_type, e.aggregate_id, e.event_seq)

/-- A uniqueness violation reported by the database, naming the index. -/
inductive UniqueViolation where
  | uniqueIndex (name : List Char)
deriving DecidableEq

/-- The violation of `ix_change_events_aggregate`. -/
def changeEventsUniqueError : UniqueViolation :=
  .uniqueIndex (chars "ix_change_events_aggregate")

/-- `INSERT` into `change_events` under the unique index: rejected with a
uniqueness violation when a row with the same
`(aggregate_type, aggregate_id, event_seq)` already exists. -/
def insertChangeEvent (e : ChangeEvent) (tbl : List ChangeEvent) :
    Except UniqueViolation (List ChangeEvent) :=
  if tbl.any (fun p => decide (tripleOf p = tripleOf e)) then
    .error changeEventsUniqueError
  else .ok (tbl ++ [e])

/-- The event sequence numbers of one aggregate's rows, in table order. -/
def seqsOf (tbl : List ChangeEvent) (atype aid : List Char) : List Int :=
  (tbl.filter (fun e => decide (e.aggregate_type = atype ∧ e.aggregate_id = aid))).map
    (fun e => e.event_seq)

/-- A concrete `change_events` row (`license` aggregate, sequence 1). -/
def cev1 : ChangeEvent :=
  ⟨chars "e1", chars "license", chars "11111111-1111-1111-1111-111111111111", 1,
   chars "CREATED", .null, none, 0⟩

/-- The same aggregate's sequence-2 row. -/
def cev2 : ChangeEvent :=
  { cev1 with event_id := chars "e2", event_seq := 2, event_type := chars "UPDATED" }

/-- A different row carrying the same key triple as `cev1`. -/
def cev3 : ChangeEvent :=
  { cev1 with event_id := chars "e3", event_type := chars "UPDATED" }

/-!
## Audit store `append`/`query` (C7)

The v2 audit router (`audit_backup.py`, `query_audit_logs`) declares the
read path — auth, RLS context, time-range validation — but then raises
`501 Audit log query not yet implemented (M2-T3)`: the audit service that
performs the store operations is absent from the sources.  The store is
therefore modelled from the spec (§4.1).
-/

/-- Modelled from the spec: the audit-record status (§3):
success/failure/denied. -/
inductive AuditStatus where
  | success
  | failure
  | denied
deriving DecidableEq

/-- Modelled from the spec: `AuditRecord` (§3) — actor (nullable, for
system actions), action type, resource type/id, timestamp (assigned at
append when absent), optional PHI-access flag and field list, optional
request trace id, status. -/
structure AuditRecord where
  actor : Option (List Char)
  action : List Char
  resource_type : List Char
  resource_id : List Char
  timestamp : Option Int
  phi_accessed : Bool
  phi_fields : Option (List (List Char))
  request_id : Option (List Char)
  status : AuditStatus
deriving DecidableEq

/-- Modelled from the spec: `append(record)` (§4.1) — validates required
fields present (structural in this typed embedding), assigns the timestamp
if absent (`now` stands for the assigned clock value), writes one row. -/
def appendAudit (now : Int) (r : AuditRecord) (st : List AuditRecord) :
    List AuditRecord :=
  st ++ [{ r with timestamp := some (r.timestamp.getD now) }]

/-- Modelled from the spec: `query(filters)` filters (§4.1) — read-only
range/equality queries by user, time range and resource. -/
structure AuditQueryFilters where
  user : Option (List Char)
  fromTime : Option Int
  toTime : Option Int
  resource_type : Option (List Char)
  resource_id : Option (List Char)

/-- Does a record satisfy every present filter? -/
def matchesFilters (f : AuditQueryFilters) (r : AuditRecord) : Bool :=
  (match f.user with
   | none => true
   | some u => r.actor = some u) &&
  (match f.fromTime, r.timestamp with
   | some lo, some t => lo ≤ t
   | some _, none => false
   | none, _ => true) &&
  (match f.toTime, r.timestamp with
   | some hi, some t => t ≤ hi
   | some _, none => false
   | none, _ => true) &&
  (match f.resource_type with
   | none => true
   | some rt => r.resource_type = rt) &&
  (match f.resource_id with
   | none => true
   | some ri => r.resource_id = ri)

/-- Modelled from the spec: `query(filters)` (§4.1) — a plain indexed
lookup, i.e. the records satisfying the filters, in store order. -/
def queryAudit (f : AuditQueryFilters) (st : List AuditRecord) : List AuditRecord :=
  st.filter (matchesFilters f)

/-- The filters that match a given record: its user, its timestamp as a
point time range, and its resource. -/
def filtersFor (r : AuditRecord) : AuditQueryFilters :=
  { user := r.actor
    fromTime := r.timestamp
    toTime := r.timestamp
    resource_type := some r.resource_type
    resource_id := some r.resource_id }

theorem hexChar_props : ∀ n, n < 16 →
    hexVal? (hexChar n) = some n ∧ hexChar n ≠ ':' ∧
    isBraceCh (hexChar n) = false ∧ hexChar n ≠ '-' := by decide

theorem hexVal?_lt {c : Char} {d : Nat} (h : hexVal? c = some d) : d < 16 := by
  simp only [hexVal?] at h
  split_ifs at h <;> simp_all <;> omega

theorem parseHexDigits_sound :
    ∀ s ns, parseHexDigits s = some ns → ns.length = s.length ∧ ∀ n ∈ ns, n < 16 := by
  intro s
  induction s with
  | nil =>
    intro ns h
    simp only [parseHexDigits, Option.some.injEq] at h
    subst h; simp
  | cons c rest ih =>
    intro ns h
    unfold parseHexDigits at h
    cases hv : hexVal? c with
    | none => rw [hv] at h; cases h
    | some d =>
      cases hp : parseHexDigits rest with
      | none => rw [hv, hp] at h; cases h
      | some ds =>
        rw [hv, hp] at h
        cases h
        obtain ⟨hl, hb⟩ := ih ds hp
        refine ⟨by simp [hl], ?_⟩
        intro n hn
        rcases List.mem_cons.mp hn with rfl | hn
        · exact hexVal?_lt hv
        · exact hb n hn

theorem parseHexDigits_map_hexChar :
    ∀ ns, (∀ n ∈ ns, n < 16) → parseHexDigits (ns.map hexChar) = some ns := by
  intro ns
  induction ns with
  | nil => intro _; rfl
  | cons n rest ih =>
    intro h
    have hn := (hexChar_props n (h n (by simp))).1
    have hr := ih (fun m hm => h m (by simp [hm]))
    simp only [List.map_cons]
    unfold parseHexDigits
    rw [hn, hr]

theorem replaceUrn_eq_self : ∀ s, (∀ c ∈ s, c ≠ ':') → replaceUrn s = s := by
  intro s
  induction s using replaceUrn.induct with
  | case1 rest _ =>
    intro h
    exact absurd rfl (h ':' (by simp))
  | case2 c rest hne ih =>
    intro h
    rw [replaceUrn]
    · rw [ih (fun d hd => h d (List.mem_cons_of_mem c hd))]
    · exact hne
  | case3 => intro _; rfl

theorem replaceUuidPat_eq_self : ∀ s, (∀ c ∈ s, c ≠ ':') → replaceUuidPat s = s := by
  intro s
  induction s using replaceUuidPat.induct with
  | case1 rest _ =>
    intro h
    exact absurd rfl (h ':' (by simp))
  | case2 c rest hne ih =>
    intro h
    rw [replaceUuidPat]
    · rw [ih (fun d hd => h d (List.mem_cons_of_mem c hd))]
    · exact hne
  | case3 => intro _; rfl

theorem dropWhile_eq_self_of {p : Char → Bool} {s : List Char}
    (h : ∀ c ∈ s, p c = false) : s.dropWhile p = s := by
  cases s with
  | nil => rfl
  | cons c t => simp [List.dropWhile_cons, h c (by simp)]

theorem stripBraces_eq_self {s : List Char}
    (h : ∀ c ∈ s, isBraceCh c = false) : stripBraces s = s := by
  unfold stripBraces
  rw [dropWhile_eq_self_of h, dropWhile_eq_self_of, List.reverse_reverse]
  intro c hc
  exact h c (by simpa using hc)

theorem mem_hyphenate {c : Char} {h : List Char} (hc : c ∈ hyphenate h) :
    c ∈ h ∨ c = '-' := by
  unfold hyphenate at hc
  simp only [List.mem_append, List.mem_cons] at hc
  rcases hc with hc | hc | hc | hc | hc | hc | hc | hc | hc
  · exact Or.inl (List.take_subset _ _ hc)
  · exact Or.inr hc
  · exact Or.inl (List.drop_subset _ _ (List.take_subset _ _ hc))
  · exact Or.inr hc
  · exact Or.inl (List.drop_subset _ _ (List.take_subset _ _ hc))
  · exact Or.inr hc
  · exact Or.inl (List.drop_subset _ _ (List.take_subset _ _ hc))
  · exact Or.inr hc
  · exact Or.inl (List.drop_subset _ _ hc)

theorem removeDashes_hyphenate {h : List Char} (hd : ∀ c ∈ h, c ≠ '-') :
    removeDashes (hyphenate h) = h := by
  have hfilter : ∀ l : List Char, l ⊆ h → List.filter (fun c => c != '-') l = l := by
    intro l hl
    refine List.filter_eq_self.mpr ?_
    intro a ha
    simpa using hd a (hl ha)
  unfold removeDashes hyphenate
  rw [List.filter_append, List.filter_cons]
  rw [List.filter_append, List.filter_cons]
  rw [List.filter_append, List.filter_cons]
  rw [List.filter_append, List.filter_cons]
  simp only [show (('-' : Char) != '-') = false from rfl, if_neg Bool.false_ne_true]
  rw [hfilter _ (List.take_subset _ _),
      hfilter _ (fun a ha => List.drop_subset _ _ (List.take_subset _ _ ha)),
      hfilter _ (fun a ha => List.drop_subset _ _ (List.take_subset _ _ ha)),
      hfilter _ (fun a ha => List.drop_subset _ _ (List.take_subset _ _ ha)),
      hfilter _ (List.drop_subset _ _)]
  conv_rhs => rw [← List.take_append_drop 8 h]
  congr 1
  conv_rhs => rw [← List.take_append_drop 4 (h.drop 8)]
  rw [List.drop_drop]
  congr 1
  conv_rhs => rw [← List.take_append_drop 4 (h.drop (4 + 8))]
  rw [List.drop_drop]
  congr 1
  conv_rhs => rw [← List.take_append_drop 4 (h.drop (4 + (4 + 8)))]
  rw [List.drop_drop]

theorem getD_set_self : ∀ (l : List Nat) (i v : Nat), i < l.length →
    (l.set i v).getD i 0 = v := by
  intro l
  induction l with
  | nil => intro i v h; cases h
  | cons a t ih =>
    intro i v h
    cases i with
    | zero => rfl
    | succ j => exact ih j v (Nat.lt_of_succ_lt_succ h)

theorem getD_set_ne : ∀ (l : List Nat) (i j v : Nat), i ≠ j →
    (l.set i v).getD j 0 = l.getD j 0 := by
  intro l
  induction l with
  | nil => intro i j v _; cases i <;> rfl
  | cons a t ih =>
    intro i j v hne
    cases i with
    | zero =>
      cases j with
      | zero => exact absurd rfl hne
      | succ k => rfl
    | succ i' =>
      cases j with
      | zero => rfl
      | succ k => exact ih i' k v (fun he => hne (by rw [he]))

theorem set_eq_self_of_getD : ∀ (l : List Nat) (i v : Nat), l.getD i 0 = v → l.set i v = l := by
  intro l
  induction l with
  | nil => intro i v _; rfl
  | cons a t ih =>
    intro i v h
    cases i with
    | zero => simp only [List.getD_cons_zero] at h; rw [← h]; rfl
    | succ j => simp only [List.getD_cons_succ] at h; simp [List.set, ih j v h]

theorem mem_of_mem_set : ∀ (l : List Nat) (i v a : Nat), a ∈ l.set i v → a ∈ l ∨ a = v := by
  intro l
  induction l with
  | nil => intro i v a h; cases h
  | cons b t ih =>
    intro i v a h
    cases i with
    | zero =>
      rcases List.mem_cons.mp h with rfl | h
      · exact Or.inr rfl
      · exact Or.inl (List.mem_cons_of_mem b h)
    | succ j =>
      rcases List.mem_cons.mp h with rfl | h
      · exact Or.inl (List.mem_cons_self _ _)
      · rcases ih j v a h with h | h
        · exact Or.inl (List.mem_cons_of_mem b h)
        · exact Or.inr h

/-- C10: `_is_valid_uuid4` accepts exactly the canonical lowercase hyphenated
string form of a version-4 UUID (version nibble `4`, RFC 4122 variant nibble
`8`-`b`); every other surface form of a UUID — uppercase hex digits, braces,
a `urn:uuid:` prefix, missing hyphens — and every string whose version or
variant bits differ is rejected, because `uuid.UUID(value, version=4)` forces
those bits and the check requires `str(parsed)` to equal the input. -/
theorem isValidUuid4_iff_canonical (s : List Char) :
    isValidUuid4 s = true ↔ IsCanonicalUuid4 s := by
  constructor
  · intro h
    simp only [isValidUuid4] at h
    split at h
    case isTrue hlen =>
      cases hp : parseHexDigits (removeDashes (stripBraces (replaceUuidPat (replaceUrn s)))) with
      | none => rw [hp] at h; cases h
      | some ns =>
        rw [hp] at h
        have hs := of_decide_eq_true h
        obtain ⟨hl, hb⟩ := parseHexDigits_sound _ ns hp
        have hl32 : ns.length = 32 := by rw [hl, hlen]
        have h16 : 16 < ns.length := by omega
        have h12 : 12 < (ns.set 16 (ns.getD 16 0 % 4 + 8)).length := by
          rw [List.length_set]; omega
        refine ⟨forceVersion4 ns, ?_, ?_, ?_, ?_, ?_, hs.symm⟩
        · unfold forceVersion4; rw [List.length_set, List.length_set]; exact hl32
        · intro n hn
          unfold forceVersion4 at hn
          rcases mem_of_mem_set _ _ _ _ hn with hn | rfl
          · rcases mem_of_mem_set _ _ _ _ hn with hn | rfl
            · exact hb n hn
            · omega
          · omega
        · unfold forceVersion4
          exact getD_set_self _ _ _ h12
        · unfold forceVersion4
          rw [getD_set_ne _ _ _ _ (by omega), getD_set_self _ _ _ h16]
          omega
        · unfold forceVersion4
          rw [getD_set_ne _ _ _ _ (by omega), getD_set_self _ _ _ h16]
          omega
    case isFalse => cases h
  · rintro ⟨ns, hlen, hlt, h12, h16lo, h16hi, rfl⟩
    have hcs : ∀ c ∈ ns.map hexChar, c ≠ ':' ∧ isBraceCh c = false ∧ c ≠ '-' := by
      intro c hc
      obtain ⟨n, hn, rfl⟩ := List.mem_map.mp hc
      obtain ⟨_, h1, h2, h3⟩ := hexChar_props n (hlt n hn)
      exact ⟨h1, h2, h3⟩
    have hall : ∀ c ∈ hyphenate (ns.map hexChar),
        c ≠ ':' ∧ isBraceCh c = false := by
      intro c hc
      rcases mem_hyphenate hc with hc | rfl
      · exact ⟨(hcs c hc).1, (hcs c hc).2.1⟩
      · exact ⟨by decide, by decide⟩
    simp only [isValidUuid4]
    rw [replaceUrn_eq_self _ (fun c hc => (hall c hc).1),
        replaceUuidPat_eq_self _ (fun c hc => (hall c hc).1),
        stripBraces_eq_self (fun c hc => (hall c hc).2),
        removeDashes_hyphenate (fun c hc => (hcs c hc).2.2)]
    rw [if_pos (by simp [hlen])]
    rw [parseHexDigits_map_hexChar ns hlt]
    have hforce : forceVersion4 ns = ns := by
      unfold forceVersion4
      have hmod : ns.getD 16 0 % 4 + 8 = ns.getD 16 0 := by omega
      rw [hmod, set_eq_self_of_getD _ _ _ rfl, set_eq_self_of_getD _ _ _ h12]
    show decide (hyphenate (List.map hexChar (forceVersion4 ns)) =
        hyphenate (List.map hexChar ns)) = true
    rw [hforce]
    exact decide_eq_true rfl

theorem firstTypeErrorField_none_iff (issue : JObj) :
    ∀ fields, firstTypeErrorField issue fields = none ↔
      ∀ p ∈ fields, ∃ v, objGet issue p.1 = some v ∧ typeMatches v p.2 = true := by
  intro fields
  induction fields with
  | nil => simp [firstTypeErrorField]
  | cons p rest ih =>
    obtain ⟨k, ty⟩ := p
    unfold firstTypeErrorField
    cases ho : objGet issue k with
    | none =>
      simp only [List.mem_cons]
      constructor
      · intro h; cases h
      · intro h
        obtain ⟨v, hv, _⟩ := h (k, ty) (Or.inl rfl)
        rw [ho] at hv; cases hv
    | some v =>
      dsimp only
      by_cases hty : typeMatches v ty = true
      · rw [if_pos hty]
        rw [ih]
        constructor
        · intro h p hp
          rcases List.mem_cons.mp hp with rfl | hp
          · exact ⟨v, ho, hty⟩
          · exact h p hp
        · intro h p hp
          exact h p (List.mem_cons_of_mem _ hp)
      · rw [if_neg hty]
        simp only [List.mem_cons]
        constructor
        · intro h; cases h
        · intro h
          obtain ⟨v', hv', hty'⟩ := h (k, ty) (Or.inl rfl)
          rw [ho] at hv'
          cases hv'
          exact absurd hty' hty

theorem checkUuidList_ok_iff (err : VErr) :
    ∀ l, checkUuidList err l = .ok () ↔
      ∀ v ∈ l, ∃ s, v = JVal.str s ∧ isValidUuid4 s = true := by
  intro l
  induction l with
  | nil => simp [checkUuidList]
  | cons v rest ih =>
    unfold checkUuidList
    cases v with
    | null => simp
    | str s =>
      dsimp only
      by_cases hu : isValidUuid4 s = true
      · rw [if_pos hu, ih]
        constructor
        · intro h w hw
          rcases List.mem_cons.mp hw with rfl | hw
          · exact ⟨s, rfl, hu⟩
          · exact h w hw
        · intro h w hw
          exact h w (List.mem_cons_of_mem _ hw)
      · rw [if_neg hu]
        constructor
        · intro h; cases h
        · intro h
          obtain ⟨s', hs', hu'⟩ := h (.str s) (List.mem_cons_self _ _)
          cases hs'
          exact absurd hu' hu
    | int n =>
      simp only [List.mem_cons]
      constructor
      · intro h; cases h
      · intro h
        obtain ⟨s', hs', _⟩ := h (.int n) (Or.inl rfl)
        cases hs'
    | bool b =>
      simp only [List.mem_cons]
      constructor
      · intro h; cases h
      · intro h
        obtain ⟨s', hs', _⟩ := h (.bool b) (Or.inl rfl)
        cases hs'
    | arr es =>
      simp only [List.mem_cons]
      constructor
      · intro h; cases h
      · intro h
        obtain ⟨s', hs', _⟩ := h (.arr es) (Or.inl rfl)
        cases hs'
    | obj fs =>
      simp only [List.mem_cons]
      constructor
      · intro h; cases h
      · intro h
        obtain ⟨s', hs', _⟩ := h (.obj fs) (Or.inl rfl)
        cases hs'

theorem scanDup_ok_iff (id : List Char) :
    ∀ lines, scanDup id lines = .ok () ↔
      ∀ e ∈ scannedEntries lines, optEqStr (objGet e (chars "issue_id")) id = false := by
  intro lines
  induction lines with
  | nil =>
    constructor
    · intro _ e he; cases he
    · intro _; rfl
  | cons line rest ih =>
    cases line with
    | text raw =>
      show scanDup id rest = .ok () ↔
        ∀ e ∈ scannedEntries rest, optEqStr (objGet e (chars "issue_id")) id = false
      exact ih
    | json v =>
      cases v with
      | obj e =>
        show (if optEqStr (objGet e (chars "issue_id")) id = true then
            Except.error (VFail.validation (.duplicateId id)) else scanDup id rest) = .ok () ↔
          ∀ e' ∈ e :: scannedEntries rest,
            optEqStr (objGet e' (chars "issue_id")) id = false
        by_cases hd : optEqStr (objGet e (chars "issue_id")) id = true
        · rw [if_pos hd]
          simp only [List.mem_cons]
          constructor
          · intro h; cases h
          · intro h
            have := h e (Or.inl rfl)
            rw [hd] at this; cases this
        · rw [if_neg hd]
          rw [ih]
          constructor
          · intro h e' he'
            rcases List.mem_cons.mp he' with rfl | he'
            · exact Bool.eq_false_iff.mpr (fun hc => hd hc)
            · exact h e' he'
          · intro h e' he'
            exact h e' (List.mem_cons_of_mem _ he')
      | str s => exact ⟨fun _ e he => absurd he (by intro h; cases h), fun _ => rfl⟩
      | int n => exact ⟨fun _ e he => absurd he (by intro h; cases h), fun _ => rfl⟩
      | bool b => exact ⟨fun _ e he => absurd he (by intro h; cases h), fun _ => rfl⟩
      | null => exact ⟨fun _ e he => absurd he (by intro h; cases h), fun _ => rfl⟩
      | arr es => exact ⟨fun _ e he => absurd he (by intro h; cases h), fun _ => rfl⟩

theorem ne_false_eq_true {b : Bool} (h : ¬ b = false) : b = true := by
  cases b
  · exact absurd rfl h
  · rfl

theorem validateIssue_ok_iff (issue : JObj) (file : Option (List FileLine)) :
    validateIssue issue file = .ok () ↔ SchemaOk issue file := by
  constructor
  · intro h
    simp only [validateIssue] at h
    by_cases hm :
        ((REQUIRED_FIELDS.map Prod.fst).filter (fun k => (objGet issue k).isNone)) = []
    case neg => rw [if_neg hm] at h; cases h
    case pos =>
    rw [if_pos hm] at h
    have hpresent : ∀ k ∈ REQUIRED_FIELDS.map Prod.fst, (objGet issue k).isSome = true := by
      intro k hk
      have hnn := List.filter_eq_nil_iff.mp hm k hk
      cases hok : objGet issue k with
      | none => exact absurd (by rw [hok]; rfl) hnn
      | some v => rfl
    cases hft : firstTypeErrorField issue REQUIRED_FIELDS with
    | some k => rw [hft] at h; cases h
    | none =>
    rw [hft] at h
    have htyped := (firstTypeErrorField_none_iff issue REQUIRED_FIELDS).mp hft
    by_cases h1 : isValidUuid4 (strField issue (chars "issue_id")) = false
    case pos => rw [if_pos h1] at h; cases h
    case neg =>
    rw [if_neg h1] at h
    by_cases h2 : isValidTimestamp (strField issue (chars "timestamp_utc")) = false
    case pos => rw [if_pos h2] at h; cases h
    case neg =>
    rw [if_neg h2] at h
    by_cases h3 : VALID_REPOS.contains (strField issue (chars "repo")) = false
    case pos => rw [if_pos h3] at h; cases h
    case neg =>
    rw [if_neg h3] at h
    by_cases h4 : VALID_SEVERITIES.contains (strField issue (chars "severity")) = false
    case pos => rw [if_pos h4] at h; cases h
    case neg =>
    rw [if_neg h4] at h
    by_cases h5 : VALID_TYPES.contains (strField issue (chars "type")) = false
    case pos => rw [if_pos h5] at h; cases h
    case neg =>
    rw [if_neg h5] at h
    by_cases h6 : VALID_STATUSES.contains (strField issue (chars "status")) = false
    case pos => rw [if_pos h6] at h; cases h
    case neg =>
    rw [if_neg h6] at h
    by_cases h7 : (strField issue (chars "title")).length < 10 ∨
        200 < (strField issue (chars "title")).length
    case pos => rw [if_pos h7] at h; cases h
    case neg =>
    rw [if_neg h7] at h
    by_cases h8 : (strField issue (chars "description")).length < 20
    case pos => rw [if_pos h8] at h; cases h
    case neg =>
    rw [if_neg h8] at h
    by_cases h9 : (strField issue (chars "repro")).length < 10
    case pos => rw [if_pos h9] at h; cases h
    case neg =>
    rw [if_neg h9] at h
    by_cases h10 : (strField issue (chars "root_cause_guess")).length < 10
    case pos => rw [if_pos h10] at h; cases h
    case neg =>
    rw [if_neg h10] at h
    by_cases h11 : intField issue (chars "attempts") < 0
    case pos => rw [if_pos h11] at h; cases h
    case neg =>
    rw [if_neg h11] at h
    cases hb : checkUuidList .badBlockedBy (listField issue (chars "blocked_by")) with
    | error e => rw [hb] at h; cases h
    | ok u =>
    cases u
    rw [hb] at h
    cases hd : checkUuidList .badDependsOn (listField issue (chars "depends_on")) with
    | error e => rw [hd] at h; cases h
    | ok u =>
    cases u
    rw [hd] at h
    refine ⟨hpresent, htyped, ne_false_eq_true h1, ne_false_eq_true h2,
      ne_false_eq_true h3, ne_false_eq_true h4, ne_false_eq_true h5, ne_false_eq_true h6,
      by omega, by omega, by omega, by omega, by omega, by omega,
      (checkUuidList_ok_iff _ _).mp hb, (checkUuidList_ok_iff _ _).mp hd, ?_⟩
    cases file with
    | none => intro e he; cases he
    | some lines => exact (scanDup_ok_iff _ _).mp h
  · rintro ⟨hpresent, htyped, huuid, hts, hrepo, hsev, htype, hstat, htlo, hthi,
      hdesc, hrepro, hrcg, hatt, hblock, hdep, hfresh⟩
    simp only [validateIssue]
    have hm : ((REQUIRED_FIELDS.map Prod.fst).filter (fun k => (objGet issue k).isNone)) = [] := by
      rw [List.filter_eq_nil_iff]
      intro k hk
      have hp := hpresent k hk
      cases ho : objGet issue k with
      | none => rw [ho] at hp; cases hp
      | some v => intro hc; cases hc
    rw [if_pos hm, (firstTypeErrorField_none_iff issue REQUIRED_FIELDS).mpr htyped]
    rw [if_neg (by rw [huuid]; intro hc; cases hc)]
    rw [if_neg (by rw [hts]; intro hc; cases hc)]
    rw [if_neg (by rw [hrepo]; intro hc; cases hc)]
    rw [if_neg (by rw [hsev]; intro hc; cases hc)]
    rw [if_neg (by rw [htype]; intro hc; cases hc)]
    rw [if_neg (by rw [hstat]; intro hc; cases hc)]
    rw [if_neg (by omega)]
    rw [if_neg (by omega)]
    rw [if_neg (by omega)]
    rw [if_neg (by omega)]
    rw [if_neg (by omega)]
    rw [(checkUuidList_ok_iff _ _).mpr hblock]
    dsimp only
    rw [(checkUuidList_ok_iff _ _).mpr hdep]
    dsimp only
    cases file with
    | none => rfl
    | some lines => exact (scanDup_ok_iff _ _).mpr hfresh

theorem objEntries_append_entry (f : List FileLine) (e : JObj) :
    objEntries (f ++ [FileLine.json (.obj e)]) = objEntries f ++ [e] := by
  induction f with
  | nil => rfl
  | cons line rest ih =>
    cases line with
    | text raw =>
      show objEntries (rest ++ [FileLine.json (.obj e)]) = objEntries rest ++ [e]
      exact ih
    | json v =>
      cases v with
      | obj e' =>
        show e' :: objEntries (rest ++ [FileLine.json (.obj e)]) =
          e' :: objEntries rest ++ [e]
        rw [ih]; rfl
      | str s => exact ih
      | int n => exact ih
      | bool b => exact ih
      | null => exact ih
      | arr es => exact ih

theorem scannedEntries_subset (lines : List FileLine) :
    ∀ e ∈ scannedEntries lines, e ∈ objEntries lines := by
  induction lines with
  | nil => intro e he; cases he
  | cons line rest ih =>
    cases line with
    | text raw => exact ih
    | json v =>
      cases v with
      | obj e' =>
        intro e he
        rcases List.mem_cons.mp he with rfl | he
        · exact List.mem_cons_self _ _
        · exact List.mem_cons_of_mem _ (ih e he)
      | str s => intro e he; cases he
      | int n => intro e he; cases he
      | bool b => intro e he; cases he
      | null => intro e he; cases he
      | arr es => intro e he; cases he

/-!
## Claim theorems for the issue-log appender
-/

/-- C3: `append_issue` is fail-closed and atomic on validation failure —
validation runs to completion before any byte is written, so whenever
validation raises, the log file is exactly as before the call and the error
propagates; and a write, when it happens, appends exactly one JSON-object
line after a successful validation. -/
theorem appendIssue_fail_closed (issue : JObj) (file : Option (List FileLine)) :
    (∀ e, validateIssue issue file = .error e →
      appendIssue issue file = (.error e, file)) ∧
    (validateIssue issue file = .ok () →
      appendIssue issue file = (.ok (),
        some ((match file with
               | none => ISSUES_LOG_HEADER
               | some f => f) ++ [FileLine.json (.obj issue)]))) := by
  constructor
  · intro e he
    unfold appendIssue
    rw [he]
  · intro hok
    unfold appendIssue
    rw [hok]

/-- Witness for C3: the second append of an already-present `issue_id`
raises the duplicate-id validation error and leaves the log unchanged. -/
theorem appendIssue_fail_closed_witness :
    validateIssue exampleIssue (some [FileLine.json (.obj exampleIssue)]) =
      .error (.validation (.duplicateId (chars "a16d7f13-4586-4fb8-ad91-24facc03042d"))) ∧
    appendIssue exampleIssue (some [FileLine.json (.obj exampleIssue)]) =
      (.error (.validation (.duplicateId (chars "a16d7f13-4586-4fb8-ad91-24facc03042d"))),
       some [FileLine.json (.obj exampleIssue)]) :=
  ⟨rfl,
   (appendIssue_fail_closed exampleIssue (some [FileLine.json (.obj exampleIssue)])).1 _ rfl⟩

/-- C4 counterexample: the claim "validate_issue raises whenever an entry
with the same issue_id is already present as a parseable non-comment line"
fails — the duplicate scan aborts with a printed warning at a line parsing
to non-object JSON (`AttributeError` at `entry.get`, swallowed by the outer
`except Exception`), so a duplicate on a later line goes undetected and
validation succeeds. -/
theorem validateIssue_missed_duplicate_cex :
    FileLine.json (.obj exampleIssue) ∈
      [FileLine.json (.int 5), FileLine.json (.obj exampleIssue)] ∧
    optEqStr (objGet exampleIssue (chars "issue_id"))
      (strField exampleIssue (chars "issue_id")) = true ∧
    validateIssue exampleIssue
      (some [FileLine.json (.int 5), FileLine.json (.obj exampleIssue)]) = .ok () :=
  ⟨List.mem_cons_of_mem _ (List.mem_cons_self _ _), rfl, rfl⟩

/-- C4 (amended): `validate_issue` returns without error exactly when every
schema constraint holds (valid UUID4 `issue_id`, ISO-8601-UTC timestamp,
repo/severity/type/status in their enum sets, title 10–200 characters, the
other length and type minimums, UUID4 cross-reference lists) and no entry
with the same `issue_id` occurs among the log's JSON-object lines before
the first line parsing to a non-object JSON value — the uniqueness scan
stops with a warning at such a line; consequently any violation among the
listed constraints makes it raise a validation error identifying the first
violated constraint. -/
theorem validateIssue_iff_schemaOk (issue : JObj) (file : Option (List FileLine)) :
    validateIssue issue file = .ok () ↔ SchemaOk issue file :=
  validateIssue_ok_iff issue file

/-- C5: an issue's lifecycle is recorded by appending further log lines
carrying the same `issue_id`, never by editing a line in place — the
status-update path (`append_fix_status.main`) opens the log in append mode
and writes one new JSON line; for any issue already present and any status
in the valid status set the append succeeds, the prior lines are untouched,
and no transition-validity constraint relates the new status to the old. -/
theorem statusUpdate_appends_new_line (f : List FileLine) (e prior : JObj)
    (id status : List Char)
    (hprior : FileLine.json (.obj prior) ∈ f)
    (hpid : optEqStr (objGet prior (chars "issue_id")) id = true)
    (hid : objGet e (chars "issue_id") = some (.str id))
    (hstatus : objGet e (chars "status") = some (.str status))
    (hvalid : status ∈ VALID_STATUSES) :
    appendRawEntry f e = f ++ [FileLine.json (.obj e)] ∧
    objEntries (appendRawEntry f e) = objEntries f ++ [e] ∧
    (appendRawEntry f e).take f.length = f :=
  ⟨rfl, objEntries_append_entry f e, List.take_left f _⟩

/-- Witness for C5: the concrete `FIXED` status update of
`append_fix_status.py`, appended after the original `NEW` entry. -/
theorem statusUpdate_appends_new_line_witness :
    appendRawEntry [FileLine.json (.obj exampleIssue)] fixStatusUpdate =
      [FileLine.json (.obj exampleIssue)] ++ [FileLine.json (.obj fixStatusUpdate)] ∧
    objEntries (appendRawEntry [FileLine.json (.obj exampleIssue)] fixStatusUpdate) =
      objEntries [FileLine.json (.obj exampleIssue)] ++ [fixStatusUpdate] ∧
    (appendRawEntry [FileLine.json (.obj exampleIssue)] fixStatusUpdate).take
      [FileLine.json (.obj exampleIssue)].length = [FileLine.json (.obj exampleIssue)] :=
  statusUpdate_appends_new_line [FileLine.json (.obj exampleIssue)] fixStatusUpdate
    exampleIssue (chars "a16d7f13-4586-4fb8-ad91-24facc03042d") (chars "FIXED")
    (List.mem_cons_self _ _) rfl rfl rfl (by decide)

/-- C6: a successful `append_issue` never rewrites or truncates existing
content — the previous lines are an unchanged initial segment of the new
file — and the line count grows by exactly one, the appended line being one
JSON object. -/
theorem appendIssue_appends_one_line (issue : JObj) (f : List FileLine)
    (h : validateIssue issue (some f) = .ok ()) :
    appendIssue issue (some f) = (.ok (), some (f ++ [FileLine.json (.obj issue)])) ∧
    (f ++ [FileLine.json (.obj issue)]).take f.length = f ∧
    (f ++ [FileLine.json (.obj issue)]).length = f.length + 1 := by
  refine ⟨?_, List.take_left f _, by simp⟩
  unfold appendIssue
  rw [h]

/-- Witness for C6: appending the `__main__` example issue (fresh UUID4,
severity HIGH, type bug, status NEW) to an existing empty log adds exactly
its line. -/
theorem appendIssue_appends_one_line_witness :
    appendIssue exampleIssue (some []) =
      (.ok (), some ([] ++ [FileLine.json (.obj exampleIssue)])) ∧
    ([] ++ [FileLine.json (.obj exampleIssue)]).take ([] : List FileLine).length = [] ∧
    ([] ++ [FileLine.json (.obj exampleIssue)]).length = ([] : List FileLine).length + 1 :=
  appendIssue_appends_one_line exampleIssue [] rfl

/-- C9: on arguments satisfying the documented constraints, `create_issue`
returns a dict that passes `validate_issue` against any log that does not
already contain its freshly generated `issue_id`; it carries the canonical
UUID4 id, the ISO-8601 UTC timestamp ending in `Z`, status `NEW`, attempts
`0`, and every required field with the required type. -/
theorem createIssue_passes_validation
    (uuidStr nowIso repo agent severity issueType title description repro
      rootCauseGuess : List Char) (blockedBy dependsOn : List (List Char))
    (file : Option (List FileLine))
    (huuid : isValidUuid4 uuidStr = true)
    (hnow : fromisoformatOk nowIso = true)
    (hrepo : repo ∈ VALID_REPOS)
    (hsev : severity ∈ VALID_SEVERITIES)
    (htype : issueType ∈ VALID_TYPES)
    (htlo : 10 ≤ title.length) (hthi : title.length ≤ 200)
    (hdesc : 20 ≤ description.length)
    (hrepro : 10 ≤ repro.length)
    (hrcg : 10 ≤ rootCauseGuess.length)
    (hblocked : ∀ s ∈ blockedBy, isValidUuid4 s = true)
    (hdepends : ∀ s ∈ dependsOn, isValidUuid4 s = true)
    (hfresh : ∀ e ∈ objEntries (file.getD []),
      optEqStr (objGet e (chars "issue_id")) uuidStr = false) :
    validateIssue (createIssue uuidStr nowIso repo agent severity issueType
      title description repro rootCauseGuess blockedBy dependsOn) file = .ok () ∧
    objGet (createIssue uuidStr nowIso repo agent severity issueType
      title description repro rootCauseGuess blockedBy dependsOn)
      (chars "issue_id") = some (.str uuidStr) ∧
    objGet (createIssue uuidStr nowIso repo agent severity issueType
      title description repro rootCauseGuess blockedBy dependsOn)
      (chars "timestamp_utc") = some (.str (nowIso ++ ['Z'])) ∧
    objGet (createIssue uuidStr nowIso repo agent severity issueType
      title description repro rootCauseGuess blockedBy dependsOn)
      (chars "status") = some (.str (chars "NEW")) ∧
    objGet (createIssue uuidStr nowIso repo agent severity issueType
      title description repro rootCauseGuess blockedBy dependsOn)
      (chars "attempts") = some (.int 0) ∧
    (∀ p ∈ REQUIRED_FIELDS, ∃ v,
      objGet (createIssue uuidStr nowIso repo agent severity issueType
        title description repro rootCauseGuess blockedBy dependsOn) p.1 = some v ∧
      typeMatches v p.2 = true) := by
  have htyped : ∀ p ∈ REQUIRED_FIELDS, ∃ v,
      objGet (createIssue uuidStr nowIso repo agent severity issueType
        title description repro rootCauseGuess blockedBy dependsOn) p.1 = some v ∧
      typeMatches v p.2 = true := by
    intro p hp
    fin_cases hp <;> exact ⟨_, rfl, rfl⟩
  refine ⟨?_, rfl, rfl, rfl, rfl, htyped⟩
  refine (validateIssue_ok_iff _ _).mpr
    ⟨?_, htyped, huuid, ?_, ?_, ?_, ?_, ?_, htlo, hthi, hdesc, hrepro, hrcg, ?_, ?_, ?_, ?_⟩
  · intro k hk; fin_cases hk <;> rfl
  · show isValidTimestamp (nowIso ++ ['Z']) = true
    unfold isValidTimestamp
    rw [List.getLast?_concat]
    show fromisoformatOk (nowIso ++ ['Z']).dropLast = true
    rw [List.dropLast_concat]
    exact hnow
  · exact List.elem_iff.mpr hrepo
  · exact List.elem_iff.mpr hsev
  · exact List.elem_iff.mpr htype
  · exact List.elem_iff.mpr (by exact List.mem_cons_self _ _)
  · exact le_refl 0
  · intro v hv
    have hv' : v ∈ blockedBy.map JVal.str := hv
    obtain ⟨s, hs, rfl⟩ := List.mem_map.mp hv'
    exact ⟨s, rfl, hblocked s hs⟩
  · intro v hv
    have hv' : v ∈ dependsOn.map JVal.str := hv
    obtain ⟨s, hs, rfl⟩ := List.mem_map.mp hv'
    exact ⟨s, rfl, hdepends s hs⟩
  · intro e he
    cases file with
    | none => cases he
    | some lines => exact hfresh e (scannedEntries_subset lines e he)

/-- Witness for C9: the module's `__main__` example issue validates against
the missing log file. -/
theorem createIssue_passes_validation_witness :
    validateIssue exampleIssue none = .ok () :=
  (createIssue_passes_validation (chars "a16d7f13-4586-4fb8-ad91-24facc03042d")
    (chars "2025-11-16T00:00:00") (chars "credentialmate-app")
    (chars "claude-code-audit-v1") (chars "HIGH") (chars "bug")
    (chars "Missing input validation in auth endpoint")
    (chars "POST /auth/login does not validate email format before database query")
    (chars "Send invalid email to POST /auth/login")
    (chars "Validation middleware missing from auth routes") [] [] none
    (by decide) (by decide) (by decide) (by decide) (by decide)
    (by decide) (by decide) (by decide) (by decide) (by decide)
    (fun s hs => absurd hs (by intro h; cases h))
    (fun s hs => absurd hs (by intro h; cases h))
    (fun e he => absurd he (by intro h; cases h))).1

theorem pyKeyEq_symm (a b : JVal) : pyKeyEq a b = pyKeyEq b a := by
  unfold pyKeyEq
  generalize pyKey a = x
  generalize pyKey b = y
  cases x <;> cases y <;> simp [eq_comm]

theorem pyKeyEq_trans {a b c : JVal} (h1 : pyKeyEq a b = true)
    (h2 : pyKeyEq b c = true) : pyKeyEq a c = true := by
  unfold pyKeyEq at h1 h2 ⊢
  generalize pyKey a = x at h1 ⊢
  generalize pyKey b = y at h1 h2
  generalize pyKey c = z at h2 ⊢
  cases x <;> cases y <;> cases z <;> simp_all

theorem filter_cons_length {α : Type} (p : α → Bool) (a : α) (l : List α) :
    ((a :: l).filter p).length = (if p a = true then 1 else 0) + (l.filter p).length := by
  rw [List.filter_cons]
  by_cases h : p a = true
  · rw [if_pos h, if_pos h]
    simp [Nat.add_comm]
  · rw [if_neg h, if_neg h]
    simp

theorem countOf_bumpKey (l : List (JVal × Nat)) (k0 k : JVal) :
    countOf (bumpKey l k0) k = countOf l k + (if pyKeyEq k0 k = true then 1 else 0) := by
  induction l with
  | nil =>
    show countOf [(k0, 1)] k = 0 + (if pyKeyEq k0 k = true then 1 else 0)
    unfold countOf
    by_cases h : pyKeyEq k0 k = true
    · rw [if_pos h, if_pos h]
    · rw [if_neg h, if_neg h]
      rfl
  | cons p rest ih =>
    obtain ⟨k', n⟩ := p
    unfold bumpKey
    by_cases h1 : pyKeyEq k' k0 = true
    · rw [if_pos h1]
      unfold countOf
      by_cases h2 : pyKeyEq k' k = true
      · have h0k : pyKeyEq k0 k = true :=
          pyKeyEq_trans (by rw [pyKeyEq_symm]; exact h1) h2
        rw [if_pos h2, if_pos h2, if_pos h0k]
      · have h0k : pyKeyEq k0 k = false := by
          rw [Bool.eq_false_iff]
          intro hc
          exact absurd (pyKeyEq_trans h1 hc) (by simpa using h2)
        rw [if_neg h2, if_neg h2, h0k]
        simp
    · rw [if_neg h1]
      unfold countOf
      by_cases h2 : pyKeyEq k' k = true
      · have h0k : pyKeyEq k0 k = false := by
          rw [Bool.eq_false_iff]
          intro hc
          exact absurd (pyKeyEq_trans h2 (by rw [pyKeyEq_symm]; exact hc)) (by simpa using h1)
        rw [if_pos h2, if_pos h2, h0k]
        simp
      · rw [if_neg h2, if_neg h2]
        exact ih

theorem checkNewLines_eq (lines : List FileLine)
    (hobj : ∀ v, FileLine.json v ∈ lines → ∃ e, v = JVal.obj e) :
    checkNewLines lines = .ok ((objEntries lines).filter
      (fun e => optEqStr (objGet e (chars "status")) (chars "NEW"))) := by
  induction lines with
  | nil => rfl
  | cons line rest ih =>
    have hrest : ∀ v, FileLine.json v ∈ rest → ∃ e, v = JVal.obj e :=
      fun v hv => hobj v (List.mem_cons_of_mem _ hv)
    cases line with
    | text raw => exact ih hrest
    | json v =>
      obtain ⟨e, rfl⟩ := hobj v (List.mem_cons_self _ _)
      show (if optEqStr (objGet e (chars "status")) (chars "NEW") = true then
          match checkNewLines rest with
          | Except.error err => Except.error err
          | Except.ok r => Except.ok (e :: r)
        else checkNewLines rest) =
        .ok (List.filter (fun e => optEqStr (objGet e (chars "status")) (chars "NEW"))
          (e :: objEntries rest))
      rw [List.filter_cons]
      by_cases hs : optEqStr (objGet e (chars "status")) (chars "NEW") = true
      · rw [if_pos hs, if_pos hs, ih hrest]
      · rw [if_neg hs, if_neg hs, ih hrest]

theorem summLines_characterization (lines : List FileLine)
    (hobj : ∀ v, FileLine.json v ∈ lines → ∃ e, v = JVal.obj e)
    (hscal : ∀ e ∈ objEntries lines,
      jvalScalar (keyOf (chars "status") e) = true ∧
      jvalScalar (keyOf (chars "severity") e) = true ∧
      jvalScalar (keyOf (chars "repo") e) = true ∧
      jvalScalar (keyOf (chars "type") e) = true) :
    ∀ acc, ∃ s, summLines lines acc = .ok s ∧
      s.total_issues = acc.total_issues + (objEntries lines).length ∧
      s.new_count = acc.new_count + ((objEntries lines).filter
        (fun e => jvalEqStr (keyOf (chars "status") e) (chars "NEW"))).length ∧
      (∀ k, countOf s.by_status k = countOf acc.by_status k +
        ((objEntries lines).filter (fun e => pyKeyEq (keyOf (chars "status") e) k)).length) ∧
      (∀ k, countOf s.by_severity k = countOf acc.by_severity k +
        ((objEntries lines).filter (fun e => pyKeyEq (keyOf (chars "severity") e) k)).length) ∧
      (∀ k, countOf s.by_repo k = countOf acc.by_repo k +
        ((objEntries lines).filter (fun e => pyKeyEq (keyOf (chars "repo") e) k)).length) ∧
      (∀ k, countOf s.by_type k = countOf acc.by_type k +
        ((objEntries lines).filter (fun e => pyKeyEq (keyOf (chars "type") e) k)).length) := by
  induction lines with
  | nil =>
    intro acc
    exact ⟨acc, rfl, by simp [objEntries], by simp [objEntries],
      fun k => by simp [objEntries], fun k => by simp [objEntries],
      fun k => by simp [objEntries], fun k => by simp [objEntries]⟩
  | cons line rest ih =>
    have hrest : ∀ v, FileLine.json v ∈ rest → ∃ e, v = JVal.obj e :=
      fun v hv => hobj v (List.mem_cons_of_mem _ hv)
    cases line with
    | text raw =>
      intro acc
      exact ih hrest hscal acc
    | json v =>
      obtain ⟨e, rfl⟩ := hobj v (List.mem_cons_self _ _)
      have hrscal : ∀ e' ∈ objEntries rest,
          jvalScalar (keyOf (chars "status") e') = true ∧
          jvalScalar (keyOf (chars "severity") e') = true ∧
          jvalScalar (keyOf (chars "repo") e') = true ∧
          jvalScalar (keyOf (chars "type") e') = true :=
        fun e' he' => hscal e' (List.mem_cons_of_mem _ he')
      obtain ⟨hst, hsev, hrp, htp⟩ := hscal e (List.mem_cons_self _ _)
      intro acc
      have hstep : summStep acc e = .ok
          { total_issues := acc.total_issues + 1
            by_status := bumpKey acc.by_status (keyOf (chars "status") e)
            by_severity := bumpKey acc.by_severity (keyOf (chars "severity") e)
            by_repo := bumpKey acc.by_repo (keyOf (chars "repo") e)
            by_type := bumpKey acc.by_type (keyOf (chars "type") e)
            new_count := acc.new_count +
              (if jvalEqStr (keyOf (chars "status") e) (chars "NEW") then 1 else 0) } := by
        unfold summStep
        rw [if_neg (by rw [hst]; intro hc; cases hc)]
        rw [if_neg (by rw [hsev]; intro hc; cases hc)]
        rw [if_neg (by rw [hrp]; intro hc; cases hc)]
        rw [if_neg (by rw [htp]; intro hc; cases hc)]
      obtain ⟨s, hs, htot, hnew, hbst, hbsev, hbrp, hbtp⟩ := ih hrest hrscal
        { total_issues := acc.total_issues + 1
          by_status := bumpKey acc.by_status (keyOf (chars "status") e)
          by_severity := bumpKey acc.by_severity (keyOf (chars "severity") e)
          by_repo := bumpKey acc.by_repo (keyOf (chars "repo") e)
          by_type := bumpKey acc.by_type (keyOf (chars "type") e)
          new_count := acc.new_count +
            (if jvalEqStr (keyOf (chars "status") e) (chars "NEW") then 1 else 0) }
      refine ⟨s, ?_, ?_, ?_, ?_, ?_, ?_, ?_⟩
      · show (match summStep acc e with
          | Except.error err => Except.error err
          | Except.ok acc' => summLines rest acc') = Except.ok s
        rw [hstep]
        exact hs
      · show s.total_issues = acc.total_issues + (e :: objEntries rest).length
        rw [htot]
        simp only [List.length_cons]
        omega
      · show s.new_count = acc.new_count + ((e :: objEntries rest).filter
          (fun e => jvalEqStr (keyOf (chars "status") e) (chars "NEW"))).length
        rw [hnew, filter_cons_length]
        simp only [Nat.add_assoc]
      · intro k
        show countOf s.by_status k = countOf acc.by_status k + ((e :: objEntries rest).filter
          (fun e => pyKeyEq (keyOf (chars "status") e) k)).length
        rw [hbst, countOf_bumpKey, filter_cons_length]
        simp only [Nat.add_assoc]
      · intro k
        show countOf s.by_severity k = countOf acc.by_severity k + ((e :: objEntries rest).filter
          (fun e => pyKeyEq (keyOf (chars "severity") e) k)).length
        rw [hbsev, countOf_bumpKey, filter_cons_length]
        simp only [Nat.add_assoc]
      · intro k
        show countOf s.by_repo k = countOf acc.by_repo k + ((e :: objEntries rest).filter
          (fun e => pyKeyEq (keyOf (chars "repo") e) k)).length
        rw [hbrp, countOf_bumpKey, filter_cons_length]
        simp only [Nat.add_assoc]
      · intro k
        show countOf s.by_type k = countOf acc.by_type k + ((e :: objEntries rest).filter
          (fun e => pyKeyEq (keyOf (chars "type") e) k)).length
        rw [hbtp, countOf_bumpKey, filter_cons_length]
        simp only [Nat.add_assoc]

/-- C8 counterexample: the claim that `check_new_issues` and
`get_issue_summary` never raise on any log-file content fails — on a log
whose only line is `5` (valid JSON, but not an object) both raise an
uncaught `AttributeError` at `entry.get` instead of skipping the line. -/
theorem readScans_raise_cex :
    checkNewIssues (some [FileLine.json (.int 5)]) = .error .attributeError ∧
    getIssueSummary (some [FileLine.json (.int 5)]) = .error .attributeError :=
  ⟨rfl, rfl⟩

/-- C8 (amended): on any log-file content whose JSON-parseable lines all
parse to objects, the read-only scans never raise: they fold over exactly
those lines — skipping blank, `#`-comment and JSON-unparseable lines —
`check_new_issues` returning the entries whose status equals `NEW`, and
`get_issue_summary` (additionally assuming each entry's
status/severity/repo/type values are hashable scalars, since an unhashable
value raises `TypeError` as a dict key) returning the counts of entries
grouped by status, severity, repo and type. -/
theorem readScans_fold_characterization (lines : List FileLine)
    (hobj : ∀ v, FileLine.json v ∈ lines → ∃ e, v = JVal.obj e) :
    checkNewIssues (some lines) = .ok ((objEntries lines).filter
      (fun e => optEqStr (objGet e (chars "status")) (chars "NEW"))) ∧
    ((∀ e ∈ objEntries lines,
        jvalScalar (keyOf (chars "status") e) = true ∧
        jvalScalar (keyOf (chars "severity") e) = true ∧
        jvalScalar (keyOf (chars "repo") e) = true ∧
        jvalScalar (keyOf (chars "type") e) = true) →
      ∃ s, getIssueSummary (some lines) = .ok s ∧
        s.total_issues = (objEntries lines).length ∧
        s.new_count = ((objEntries lines).filter
          (fun e => jvalEqStr (keyOf (chars "status") e) (chars "NEW"))).length ∧
        (∀ k, countOf s.by_status k = ((objEntries lines).filter
          (fun e => pyKeyEq (keyOf (chars "status") e) k)).length) ∧
        (∀ k, countOf s.by_severity k = ((objEntries lines).filter
          (fun e => pyKeyEq (keyOf (chars "severity") e) k)).length) ∧
        (∀ k, countOf s.by_repo k = ((objEntries lines).filter
          (fun e => pyKeyEq (keyOf (chars "repo") e) k)).length) ∧
        (∀ k, countOf s.by_type k = ((objEntries lines).filter
          (fun e => pyKeyEq (keyOf (chars "type") e) k)).length)) := by
  refine ⟨checkNewLines_eq lines hobj, ?_⟩
  intro hscal
  obtain ⟨s, hs, htot, hnew, h1, h2, h3, h4⟩ :=
    summLines_characterization lines hobj hscal initSummary
  exact ⟨s, hs, by simpa [initSummary] using htot, by simpa [initSummary] using hnew,
    fun k => by simpa [initSummary, countOf] using h1 k,
    fun k => by simpa [initSummary, countOf] using h2 k,
    fun k => by simpa [initSummary, countOf] using h3 k,
    fun k => by simpa [initSummary, countOf] using h4 k⟩

/-- Witness for C8 (amended): a log with a comment line, one `NEW` entry
and one malformed line is folded correctly by both scans. -/
theorem readScans_fold_characterization_witness :
    checkNewIssues (some [FileLine.text (chars "# comment"),
      FileLine.json (.obj exampleIssue), FileLine.text (chars "not json")]) =
      .ok [exampleIssue] ∧
    ∃ s, getIssueSummary (some [FileLine.text (chars "# comment"),
      FileLine.json (.obj exampleIssue), FileLine.text (chars "not json")]) = .ok s ∧
      s.total_issues = 1 := by
  have h := readScans_fold_characterization
    [FileLine.text (chars "# comment"), FileLine.json (.obj exampleIssue),
     FileLine.text (chars "not json")]
    (by
      intro v hv
      simp only [List.mem_cons] at hv
      rcases hv with hv | hv | hv
      · cases hv
      · cases hv; exact ⟨exampleIssue, rfl⟩
      · rcases hv with hv | hv
        · cases hv
        · cases hv)
  refine ⟨h.1, ?_⟩
  obtain ⟨s, hs, htot, _⟩ := h.2 (by
    intro e he
    have he' : e ∈ [exampleIssue] := he
    rcases List.mem_cons.mp he' with rfl | h0
    · exact ⟨rfl, rfl, rfl, rfl⟩
    · cases h0)
  exact ⟨s, hs, htot⟩

/-- C1: for every persisted row of the three audit tables, any `UPDATE` or
`DELETE` attempt targeting it fails with the explicit immutability error
raised by the `BEFORE UPDATE OR DELETE` trigger and leaves the database
state (hence the row) unchanged; only `INSERT` ever alters these tables'
contents. -/
theorem auditDb_immutable {ρ : Type} (db : AuditDb ρ) (t : AuditTable)
    (cond : ρ → Bool) (setf : ρ → ρ)
    (h : ∃ r ∈ tableOf db t, cond r = true) :
    execStmt (.update t cond setf) db = (.error immutabilityError, db) ∧
    execStmt (.delete t cond) db = (.error immutabilityError, db) ∧
    ∀ stmt : SqlStmt ρ, (execStmt stmt db).2 ≠ db → ∃ t' r, stmt = .insert t' r := by
  have hany : (tableOf db t).any cond = true := by
    rw [List.any_eq_true]
    obtain ⟨r, hr, hc⟩ := h
    exact ⟨r, hr, hc⟩
  refine ⟨?_, ?_, ?_⟩
  · show (if (tableOf db t).any cond = true then (Except.error immutabilityError, db)
        else (Except.ok (), db)) = (Except.error immutabilityError, db)
    rw [if_pos hany]
  · show (if (tableOf db t).any cond = true then (Except.error immutabilityError, db)
        else (Except.ok (), db)) = (Except.error immutabilityError, db)
    rw [if_pos hany]
  · intro stmt hne
    cases stmt with
    | insert t' r => exact ⟨t', r, rfl⟩
    | update t' c f =>
      exfalso
      apply hne
      show (if (tableOf db t').any c = true then (Except.error immutabilityError, db)
          else (Except.ok (), db)).2 = db
      by_cases hc : (tableOf db t').any c = true
      · rw [if_pos hc]
      · rw [if_neg hc]
    | delete t' c =>
      exfalso
      apply hne
      show (if (tableOf db t').any c = true then (Except.error immutabilityError, db)
          else (Except.ok (), db)).2 = db
      by_cases hc : (tableOf db t').any c = true
      · rw [if_pos hc]
      · rw [if_neg hc]

/-- Witness for C1: on a one-row `audit_logs` table, an `UPDATE` and a
`DELETE` targeting that row both fail with the trigger error and change
nothing. -/
theorem auditDb_immutable_witness :
    execStmt (SqlStmt.update .audit_logs (fun r => r == 7) id)
      (AuditDb.mk [7] [] [] : AuditDb Nat) =
      (.error immutabilityError, AuditDb.mk [7] [] []) ∧
    execStmt (SqlStmt.delete (ρ := Nat) .audit_logs (fun r => r == 7))
      (AuditDb.mk [7] [] []) =
      (.error immutabilityError, AuditDb.mk [7] [] []) :=
  ⟨(auditDb_immutable (AuditDb.mk [7] [] []) .audit_logs (fun r => r == 7) id
      ⟨7, by decide, by decide⟩).1,
   (auditDb_immutable (AuditDb.mk [7] [] []) .audit_logs (fun r => r == 7) id
      ⟨7, by decide, by decide⟩).2.1⟩

theorem seqsOf_nodup (tbl : List ChangeEvent)
    (h : (tbl.map tripleOf).Nodup) (atype aid : List Char) :
    (seqsOf tbl atype aid).Nodup := by
  have hpw : tbl.Pairwise (fun a b => tripleOf a ≠ tripleOf b) :=
    List.pairwise_map.mp h
  have hpf : (tbl.filter
      (fun e => decide (e.aggregate_type = atype ∧ e.aggregate_id = aid))).Pairwise
      (fun a b => tripleOf a ≠ tripleOf b) :=
    hpw.filter _
  unfold seqsOf
  rw [List.Nodup, List.pairwise_map]
  refine hpf.imp_of_mem ?_
  intro a b ha hb hne heq
  apply hne
  have hpa := List.of_mem_filter ha
  have hpb := List.of_mem_filter hb
  rw [decide_eq_true_eq] at hpa hpb
  unfold tripleOf
  rw [hpa.1, hpa.2, hpb.1, hpb.2, heq]

theorem seqsOf_sorted (tbl : List ChangeEvent)
    (h : (tbl.map tripleOf).Nodup) (atype aid : List Char) :
    List.Sorted (· < ·) (List.insertionSort (· ≤ ·) (seqsOf tbl atype aid)) := by
  have hnd : (List.insertionSort (· ≤ ·) (seqsOf tbl atype aid)).Nodup :=
    (List.perm_insertionSort (· ≤ ·) (seqsOf tbl atype aid)).symm.nodup
      (seqsOf_nodup tbl h atype aid)
  have hs : List.Sorted (· ≤ ·) (List.insertionSort (· ≤ ·) (seqsOf tbl atype aid)) :=
    List.sorted_insertionSort (· ≤ ·) (seqsOf tbl atype aid)
  exact (hs.and hnd).imp (fun hab => lt_of_le_of_ne hab.1 hab.2)

/-- C2: under the unique index `ix_change_events_aggregate`, inserting a
row whose `(aggregate_type, aggregate_id, event_seq)` triple already exists
fails with a uniqueness violation; a successful insert preserves the
all-triples-distinct invariant; and for every aggregate the event_seq
values are pairwise distinct, so ordered by `<` they form a strictly
increasing sequence (a total order enabling replay). -/
theorem changeEvents_unique_order (tbl : List ChangeEvent)
    (hinv : (tbl.map tripleOf).Nodup) (e : ChangeEvent) :
    ((∃ p ∈ tbl, tripleOf p = tripleOf e) →
      insertChangeEvent e tbl = .error changeEventsUniqueError) ∧
    (∀ tbl', insertChangeEvent e tbl = .ok tbl' → (tbl'.map tripleOf).Nodup) ∧
    (∀ atype aid, (seqsOf tbl atype aid).Nodup ∧
      List.Sorted (· < ·) (List.insertionSort (· ≤ ·) (seqsOf tbl atype aid))) := by
  refine ⟨?_, ?_, fun atype aid =>
    ⟨seqsOf_nodup tbl hinv atype aid, seqsOf_sorted tbl hinv atype aid⟩⟩
  · intro hdup
    have hany : tbl.any (fun p => decide (tripleOf p = tripleOf e)) = true := by
      rw [List.any_eq_true]
      obtain ⟨p, hp, he⟩ := hdup
      exact ⟨p, hp, by rw [decide_eq_true_eq]; exact he⟩
    unfold insertChangeEvent
    rw [if_pos hany]
  · intro tbl' hins
    unfold insertChangeEvent at hins
    by_cases hany : tbl.any (fun p => decide (tripleOf p = tripleOf e)) = true
    · rw [if_pos hany] at hins
      cases hins
    · rw [if_neg hany] at hins
      cases hins
      rw [List.map_append, List.nodup_append]
      refine ⟨hinv, List.nodup_singleton _, ?_⟩
      intro x hx hx'
      rcases List.mem_map.mp hx with ⟨p, hp, rfl⟩
      have hxe : tripleOf p = tripleOf e := by
        rcases List.mem_map.mp hx' with ⟨q, hq, he⟩
        rcases List.mem_singleton.mp hq with rfl
        exact he.symm
      apply hany
      rw [List.any_eq_true]
      exact ⟨p, hp, by rw [decide_eq_true_eq]; exact hxe⟩

/-- Witness for C2: inserting a row duplicating the `(aggregate_type,
aggregate_id, event_seq)` triple of an existing row fails with the
uniqueness violation of `ix_change_events_aggregate`. -/
theorem changeEvents_unique_order_witness :
    insertChangeEvent cev3 [cev1, cev2] = .error changeEventsUniqueError :=
  (changeEvents_unique_order [cev1, cev2] (by decide) cev3).1
    ⟨cev1, List.mem_cons_self _ _, rfl⟩

/-- C7: for every valid audit record (its required fields present, its
timestamp set), `append` followed by `query` with filters matching the
record returns the record unchanged — it is among the results, exactly as
appended, and every result satisfies the filters. -/
theorem auditStore_roundtrip (st : List AuditRecord) (r : AuditRecord)
    (now t : Int) (ht : r.timestamp = some t) :
    r ∈ queryAudit (filtersFor r) (appendAudit now r st) ∧
    ∀ x ∈ queryAudit (filtersFor r) (appendAudit now r st),
      matchesFilters (filtersFor r) x = true := by
  have hr : { r with timestamp := some (r.timestamp.getD now) } = r := by
    obtain ⟨actor, action, rt, ri, ts, phi, pf, rq, stt⟩ := r
    simp only at ht
    rw [ht]
    rfl
  have hm : matchesFilters (filtersFor r) r = true := by
    unfold matchesFilters filtersFor
    simp only [ht]
    cases r.actor <;> simp
  constructor
  · unfold queryAudit appendAudit
    rw [hr]
    exact List.mem_filter.mpr ⟨List.mem_append_right _ (List.mem_cons_self _ _), hm⟩
  · intro x hx
    exact (List.mem_filter.mp hx).2

/-- Witness for C7: a concrete PHI-access record with timestamp 5 is
returned unchanged by the matching query after append. -/
theorem auditStore_roundtrip_witness :
    (AuditRecord.mk (some (chars "u1")) (chars "READ") (chars "license")
        (chars "lic-1") (some 5) true none (some (chars "req-1")) .success) ∈
      queryAudit
        (filtersFor (AuditRecord.mk (some (chars "u1")) (chars "READ")
          (chars "license") (chars "lic-1") (some 5) true none
          (some (chars "req-1")) .success))
        (appendAudit 99
          (AuditRecord.mk (some (chars "u1")) (chars "READ") (chars "license")
            (chars "lic-1") (some 5) true none (some (chars "req-1")) .success)
          []) :=
  (auditStore_roundtrip []
    (AuditRecord.mk (some (chars "u1")) (chars "READ") (chars "license")
      (chars "lic-1") (some 5) true none (some (chars "req-1")) .success)
    99 5 rfl).1

end CredentialMate
